import Mathlib

/-!
# Particle Swarm Optimization (Pso.h, Pso.cpp, pso_test.cpp)

A shallow embedding of the `Pso` class and of the test harness, followed by
theorems about it.

Modelling conventions.

* `double` is modelled by `ℚ` (exact arithmetic: no rounding, no overflow, no
  NaN).  `int` is modelled by `Int`/`Nat`; the integers the program computes
  are loop counters, ring indices (bounded by `SWARMSIZE + NEIGH_SIZE`) and
  evaluation counts, so machine overflow plays no role.
* The `#define`s of `Pso.h` are the fields of `Config`; `header` holds the
  values written in the file.  `RAND_MAX` comes from `<stdlib.h>` and is a
  field as well.
* The member arrays of the class are total functions on indices
  (`x[i][j]` is `s.x i j`); the object is created with `new`, so the arrays
  hold arbitrary values until `particles_init` writes them.
* `rand()` and the user supplied `fitness` are the two external calls.  The
  state counts the calls made so far; `Env.rand k` is the value returned by
  call number `k` of `rand()`, and `Env.fitness k p` the value returned by call
  number `k` of `fitness` on the coefficient vector `p`.  A deterministic
  fitness function is one that ignores `k`.
* A `for (i = 0; i < n; i++)` loop is `forLoop n body`.
-/

namespace Pso

/-- Runs `body 0`, `body 1`, ..., `body (n-1)` in this order on the state. -/
def forLoop {σ : Type} : Nat → (Nat → σ → σ) → σ → σ
  | 0, _, s => s
  | n + 1, body, s => body n (forLoop n body s)

/-- The `#define`s of `Pso.h`, and `RAND_MAX` of `<stdlib.h>`. -/
structure Config where
  NOISY : Bool
  DATASIZE : Nat
  SWARMSIZE : Nat
  TOTAL_ITERATIONS : Nat
  MININIT : ℚ
  MAXINIT : ℚ
  VMAX : ℚ
  NEIGH_SIZE : Nat
  INERTIA : ℚ
  PWEIGHT : ℚ
  NWEIGHT : ℚ
  RAND_MAX : Nat

/-- The values written in `Pso.h` (`NOISY` is commented out there). -/
def header : Config where
  NOISY := false
  DATASIZE := 6
  SWARMSIZE := 100
  TOTAL_ITERATIONS := 100
  MININIT := -10
  MAXINIT := 10
  VMAX := 4
  NEIGH_SIZE := 3
  INERTIA := 3 / 5
  PWEIGHT := 2
  NWEIGHT := 2
  RAND_MAX := 2147483647

/-- `PSO_ITERATIONS`: half of `TOTAL_ITERATIONS` under `NOISY`. -/
def PSO_ITERATIONS (c : Config) : Nat :=
  if c.NOISY then c.TOTAL_ITERATIONS / 2 else c.TOTAL_ITERATIONS

/-- The two external calls: `rand()` and the user's `fitness`. -/
structure Env where
  rand : Nat → Nat
  fitness : Nat → List ℚ → ℚ

/-- The data members of class `Pso`, the contents of the log file, and the
two call counters. -/
structure Swarm where
  x : Nat → Nat → ℚ
  v : Nat → Nat → ℚ
  x_fit : Nat → ℚ
  p_best : Nat → Nat → ℚ
  p_best_fit : Nat → ℚ
  p_best_times : Nat → Int
  neighbor : Nat → Nat → Int
  n_best : Nat → Nat → ℚ
  n_best_fit : Nat → ℚ
  g_best : Nat → ℚ
  g_best_fit : ℚ
  fit_log : List (Nat × ℚ)
  rand_calls : Nat
  fit_calls : Nat

/-- Assignment `a[i] = val`. -/
def set1 {α : Type} (a : Nat → α) (i : Nat) (val : α) : Nat → α :=
  fun k => if k = i then val else a k

/-- Assignment `a[i][j] = val`. -/
def set2 {α : Type} (a : Nat → Nat → α) (i j : Nat) (val : α) : Nat → Nat → α :=
  fun k l => if k = i ∧ l = j then val else a k l

/-- The `DATASIZE` coefficients a `double *` argument points to. -/
def coeffs (c : Config) (p : Nat → ℚ) : List ℚ :=
  (List.range c.DATASIZE).map p

/-- `uniform(min, max)`, given the value `r` that `rand()` returns. -/
def uniform (c : Config) (r : Nat) (min max : ℚ) : ℚ :=
  (max - min) * (r : ℚ) / (c.RAND_MAX : ℚ) + min

/-- `copy_particle(org, dest)`: the new contents of `dest`. -/
def copy_particle (c : Config) (org dest : Nat → ℚ) : Nat → ℚ :=
  forLoop c.DATASIZE (fun j d => set1 d j (org j)) dest

/-- Body of the loops of `find_neighborhood` for particle `i`, slot `j`. -/
def find_neighborhood_step (c : Config) (i j : Nat) (s : Swarm) : Swarm :=
  let r : Int := Int.tmod ((i : Int) - Int.tdiv (c.NEIGH_SIZE : Int) 2 + (j : Int)) (c.SWARMSIZE : Int)
  let s1 := { s with neighbor := set2 s.neighbor i j r }
  if s1.neighbor i j < 0 then
    { s1 with neighbor := set2 s1.neighbor i j (s1.neighbor i j + (c.SWARMSIZE : Int)) }
  else s1

/-- `Pso::find_neighborhood`. -/
def find_neighborhood (c : Config) (s : Swarm) : Swarm :=
  forLoop c.SWARMSIZE (fun i s => forLoop c.NEIGH_SIZE (fun j s => find_neighborhood_step c i j s) s) s

/-- Body of the loop of `update_p_best` for particle `i`. -/
def update_p_best_step (c : Config) (i : Nat) (s : Swarm) : Swarm :=
  if s.x_fit i > s.p_best_fit i then
    { s with
      p_best_fit := set1 s.p_best_fit i (s.x_fit i)
      p_best := set1 s.p_best i (copy_particle c (s.x i) (s.p_best i))
      p_best_times := set1 s.p_best_times i 1 }
  else s

/-- `Pso::update_p_best`. -/
def update_p_best (c : Config) (s : Swarm) : Swarm :=
  forLoop c.SWARMSIZE (update_p_best_step c) s

/-- Body of the inner loop of `update_n_best`: neighbor slot `j` of particle `i`. -/
def update_n_best_slot (c : Config) (i j : Nat) (s : Swarm) : Swarm :=
  let n := (s.neighbor i j).toNat
  if s.p_best_fit n > s.n_best_fit i then
    { s with
      n_best_fit := set1 s.n_best_fit i (s.p_best_fit n)
      n_best := set1 s.n_best i (copy_particle c (s.p_best n) (s.n_best i)) }
  else s

/-- The comparison with the global best that ends the body of the outer loop
of `update_n_best`. -/
def update_g_best_step (c : Config) (i : Nat) (s : Swarm) : Swarm :=
  if s.n_best_fit i > s.g_best_fit then
    { s with
      g_best_fit := s.n_best_fit i
      g_best := copy_particle c (s.n_best i) s.g_best }
  else s

/-- Body of the outer loop of `update_n_best` for particle `i`. -/
def update_n_best_step (c : Config) (i : Nat) (s : Swarm) : Swarm :=
  update_g_best_step c i (forLoop c.NEIGH_SIZE (update_n_best_slot c i) s)

/-- `Pso::update_n_best`. -/
def update_n_best (c : Config) (s : Swarm) : Swarm :=
  forLoop c.SWARMSIZE (update_n_best_step c) s

/-- The velocity that `update_particle_positions` stores in `v[i][j]`, given
the values `r1`, `r2` returned by the two calls of `rand()`. -/
def new_velocity (c : Config) (s : Swarm) (i j r1 r2 : Nat) : ℚ :=
  let v0 := c.INERTIA * s.v i j + c.PWEIGHT * uniform c r1 0 1 * (s.p_best i j - s.x i j)
    + c.NWEIGHT * uniform c r2 0 1 * (s.n_best i j - s.x i j)
  let v1 := if v0 > c.VMAX then c.VMAX else v0
  if v1 < -c.VMAX then -c.VMAX else v1

/-- Body of the loops of `update_particle_positions` for particle `i`,
dimension `j`.  The two calls of `uniform` are taken in the order they are
written. -/
def update_particle_positions_step (e : Env) (c : Config) (i j : Nat) (s : Swarm) : Swarm :=
  let vn := new_velocity c s i j (e.rand s.rand_calls) (e.rand (s.rand_calls + 1))
  { s with
    v := set2 s.v i j vn
    x := set2 s.x i j (s.x i j + vn)
    rand_calls := s.rand_calls + 2 }

/-- `Pso::update_particle_positions`. -/
def update_particle_positions (e : Env) (c : Config) (s : Swarm) : Swarm :=
  forLoop c.SWARMSIZE
    (fun i s => forLoop c.DATASIZE (fun j s => update_particle_positions_step e c i j s) s) s

/-- Body of the loop of `evaluate_particles` for particle `i`. -/
def evaluate_particles_step (e : Env) (c : Config) (i : Nat) (s : Swarm) : Swarm :=
  { s with
    x_fit := set1 s.x_fit i (e.fitness s.fit_calls (coeffs c (s.x i)))
    fit_calls := s.fit_calls + 1 }

/-- `Pso::evaluate_particles`. -/
def evaluate_particles (e : Env) (c : Config) (s : Swarm) : Swarm :=
  forLoop c.SWARMSIZE (evaluate_particles_step e c) s

/-- Body of the loop of `evaluate_best` for particle `i`. -/
def evaluate_best_step (e : Env) (c : Config) (i : Nat) (s : Swarm) : Swarm :=
  let new_fit := e.fitness s.fit_calls (coeffs c (s.p_best i))
  { s with
    p_best_fit := set1 s.p_best_fit i
      ((s.p_best_fit i * (s.p_best_times i : ℚ) + new_fit) / ((s.p_best_times i : ℚ) + 1))
    p_best_times := set1 s.p_best_times i (s.p_best_times i + 1)
    fit_calls := s.fit_calls + 1 }

/-- `Pso::evaluate_best`. -/
def evaluate_best (e : Env) (c : Config) (s : Swarm) : Swarm :=
  forLoop c.SWARMSIZE (evaluate_best_step e c) s

/-- Body of the inner loop of `particles_init`: the two draws for `x[i][j]`
and `v[i][j]`. -/
def particles_init_draw (e : Env) (c : Config) (i j : Nat) (s : Swarm) : Swarm :=
  { s with
    x := set2 s.x i j (uniform c (e.rand s.rand_calls) c.MININIT c.MAXINIT)
    v := set2 s.v i j (uniform c (e.rand (s.rand_calls + 1)) (-c.VMAX) c.VMAX)
    rand_calls := s.rand_calls + 2 }

/-- Body of the outer loop of `particles_init` for particle `i`. -/
def particles_init_step (e : Env) (c : Config) (i : Nat) (s : Swarm) : Swarm :=
  let s1 := forLoop c.DATASIZE (particles_init_draw e c i) s
  { s1 with
    x_fit := set1 s1.x_fit i (-1)
    p_best_fit := set1 s1.p_best_fit i (-1)
    n_best_fit := set1 s1.n_best_fit i (-1) }

/-- The first part of `particles_init`: the loop and the assignment to
`g_best_fit`. -/
def particles_init_reset (e : Env) (c : Config) (s : Swarm) : Swarm :=
  let s1 := forLoop c.SWARMSIZE (particles_init_step e c) s
  { s1 with g_best_fit := -1 }

/-- `Pso::particles_init`. -/
def particles_init (e : Env) (c : Config) (s : Swarm) : Swarm :=
  update_n_best c (find_neighborhood c (update_p_best c
    (evaluate_particles e c (particles_init_reset e c s))))

/-- The part of the body of the loop of `pso_run` that comes before the two
print statements. -/
def pso_iteration (e : Env) (c : Config) (s : Swarm) : Swarm :=
  let s1 := evaluate_particles e c (update_particle_positions e c s)
  let s2 := if c.NOISY then evaluate_best e c s1 else s1
  update_n_best c (update_p_best c s2)

/-- Body of the loop of `pso_run`: iteration `i`, with its log record. -/
def pso_run_step (e : Env) (c : Config) (i : Nat) (s : Swarm) : Swarm :=
  let s1 := pso_iteration e c s
  { s1 with fit_log := s1.fit_log ++ [(i, s1.g_best_fit)] }

/-- The state of the object after `particles_init` and the first `k`
iterations of the loop of `pso_run`, for a log file that `fopen` opened (and
emptied). -/
def pso_run_after (e : Env) (c : Config) (k : Nat) (s : Swarm) : Swarm :=
  forLoop k (pso_run_step e c) (particles_init e c { s with fit_log := [] })

/-- The state of the object when `pso_run` returns. -/
def pso_run_state (e : Env) (c : Config) (s : Swarm) : Swarm :=
  pso_run_after e c (PSO_ITERATIONS c) s

/-- `Pso::pso_run`: the coefficients the returned pointer points to. -/
def pso_run (e : Env) (c : Config) (s : Swarm) : List ℚ :=
  coeffs c (pso_run_state e c s).g_best

/-- `fitness` of `pso_test.cpp` (the sphere function, inverted). -/
def fitness (c : Config) (x : List ℚ) : ℚ :=
  let perf := forLoop c.DATASIZE (fun i perf => perf + (x.getD i 0) ^ 2) 0
  let perf1 := if perf = 0 then 1 / 100000 else perf
  1 / perf1

/-- The index that `find_neighborhood` stores in `neighbor[i][j]`. -/
def ring_index (c : Config) (i j : Nat) : Int :=
  let r : Int := Int.tmod ((i : Int) - Int.tdiv (c.NEIGH_SIZE : Int) 2 + (j : Int)) (c.SWARMSIZE : Int)
  if r < 0 then r + (c.SWARMSIZE : Int) else r

/-- A state whose arrays hold zero everywhere. -/
def zeroSwarm : Swarm where
  x := fun _ _ => 0
  v := fun _ _ => 0
  x_fit := fun _ => 0
  p_best := fun _ _ => 0
  p_best_fit := fun _ => 0
  p_best_times := fun _ => 0
  neighbor := fun _ _ => 0
  n_best := fun _ _ => 0
  n_best_fit := fun _ => 0
  g_best := fun _ => 0
  g_best_fit := 0
  fit_log := []
  rand_calls := 0
  fit_calls := 0

/-- The configuration of `Pso.h` with five particles. -/
def header5 : Config := { header with SWARMSIZE := 5 }

/-- The spec's `clamp(t, lo, hi)`. -/
def clamp (t lo hi : ℚ) : ℚ := min (max t lo) hi

/-- Every velocity component of the swarm lies in `[-VMAX, VMAX]`. -/
def vel_bounded (c : Config) (s : Swarm) : Prop :=
  ∀ i j, i < c.SWARMSIZE → j < c.DATASIZE → -c.VMAX ≤ s.v i j ∧ s.v i j ≤ c.VMAX

/-- An environment whose `rand()` and `fitness` always return zero. -/
def env0 : Env where
  rand := fun _ => 0
  fitness := fun _ _ => 0

/-- The value of `n_best_fit[i]` after the first `m` rounds of the inner loop
of `update_n_best`: `pf` is `p_best_fit`, `nb` is `neighbor[i]` and `f0` the
value of `n_best_fit[i]` before the loop. -/
def scan_fit (pf : Nat → ℚ) (nb : Nat → Int) (f0 : ℚ) : Nat → ℚ
  | 0 => f0
  | m + 1 =>
    if pf (nb m).toNat > scan_fit pf nb f0 m then pf (nb m).toNat else scan_fit pf nb f0 m

/-- The contents of `n_best[i]` after the first `m` rounds of the inner loop
of `update_n_best`: `pb` is `p_best` and `b0` the contents of `n_best[i]`
before the loop. -/
def scan_pos (c : Config) (pf : Nat → ℚ) (pb : Nat → Nat → ℚ) (nb : Nat → Int) (f0 : ℚ)
    (b0 : Nat → ℚ) : Nat → (Nat → ℚ)
  | 0 => b0
  | m + 1 =>
    if pf (nb m).toNat > scan_fit pf nb f0 m
    then copy_particle c (pb (nb m).toNat) (scan_pos c pf pb nb f0 b0 m)
    else scan_pos c pf pb nb f0 b0 m

/-- The value of `n_best_fit[i]` after the inner loop of `update_n_best`
started in state `s`. -/
def nfit (c : Config) (s : Swarm) (i : Nat) : ℚ :=
  scan_fit s.p_best_fit (s.neighbor i) (s.n_best_fit i) c.NEIGH_SIZE

/-- The contents of `n_best[i]` after the inner loop of `update_n_best`
started in state `s`. -/
def npos (c : Config) (s : Swarm) (i : Nat) : Nat → ℚ :=
  scan_pos c s.p_best_fit s.p_best (s.neighbor i) (s.n_best_fit i) (s.n_best i) c.NEIGH_SIZE

/-- The value of `g_best_fit` after the first `n` rounds of the outer loop of
`update_n_best` started in state `s`. -/
def gfit (c : Config) (s : Swarm) : Nat → ℚ
  | 0 => s.g_best_fit
  | n + 1 => if nfit c s n > gfit c s n then nfit c s n else gfit c s n

/-- The contents of `g_best` after the first `n` rounds of the outer loop of
`update_n_best` started in state `s`. -/
def gpos (c : Config) (s : Swarm) : Nat → (Nat → ℚ)
  | 0 => s.g_best
  | n + 1 =>
    if nfit c s n > gfit c s n then copy_particle c (npos c s n) (gpos c s n) else gpos c s n

/-- The configuration of `Pso.h` with `NOISY` defined. -/
def headerNoisy : Config := { header with NOISY := true }

/-- The neighbor table is the ring that `find_neighborhood` builds. -/
def ring_neighbors (c : Config) (s : Swarm) : Prop :=
  ∀ i j, i < c.SWARMSIZE → j < c.NEIGH_SIZE → s.neighbor i j = ring_index c i j

/-- The relation between the three tiers of bests that holds after every
`update_n_best` of a non-noisy run: no neighborhood best beats the global
best, and the global-best fitness is the greatest personal-best fitness. -/
def best_inv (c : Config) (s : Swarm) : Prop :=
  ring_neighbors c s
  ∧ (∀ i, i < c.SWARMSIZE → s.n_best_fit i ≤ s.g_best_fit)
  ∧ IsGreatest {q | ∃ i, i < c.SWARMSIZE ∧ q = s.p_best_fit i} s.g_best_fit

/-- The state of `particles_init` just before its last statement, the call of
`update_n_best`. -/
def particles_init_seeded (e : Env) (c : Config) (s : Swarm) : Swarm :=
  find_neighborhood c (update_p_best c (evaluate_particles e c (particles_init_reset e c s)))

/-- The state of `pso_iteration` just before its last statement, the call of
`update_n_best`, when `NOISY` is not defined. -/
def pso_iteration_scored (e : Env) (c : Config) (s : Swarm) : Swarm :=
  update_p_best c (evaluate_particles e c (update_particle_positions e c s))

/-- An environment whose `fitness` always returns one. -/
def env1 : Env where
  rand := fun _ => 0
  fitness := fun _ _ => 1

/-- The value `fitness(x[i])` that `particles_init` obtains for particle `i`:
the result of call number `i` of `fitness`, counted from the start of
`particles_init`, on the initial position of the particle. -/
def init_fitness (e : Env) (c : Config) (s : Swarm) (i : Nat) : ℚ :=
  e.fitness (s.fit_calls + i) (coeffs c ((particles_init e c s).x i))

/-- The value of `perf` in `fitness` of `pso_test.cpp` when its loop ends. -/
def fitness_sum (c : Config) (x : List ℚ) : ℚ :=
  forLoop c.DATASIZE (fun i perf => perf + (x.getD i 0) ^ 2) 0

/-- The value of `perf` in `fitness` of `pso_test.cpp` at the `return`
statement: the divisor of `1/perf`. -/
def fitness_perf (c : Config) (x : List ℚ) : ℚ :=
  if fitness_sum c x = 0 then 1 / 100000 else fitness_sum c x

/-- The formula the specification gives for the harness fitness:
`1 / max(sum of squares, epsilon)` with `epsilon = 0.00001`. -/
def sphere_spec (x : List ℚ) : ℚ :=
  1 / max ((x.map (fun t => t ^ 2)).sum) (1 / 100000)

/-- Two states agree on everything the search uses: all members of the class
except `g_best` and `g_best_fit`, and the numbers of `rand()` and `fitness`
calls made so far (so that both see the same draws and the same fitness
results from here on). -/
def same_search (s t : Swarm) : Prop :=
  s.x = t.x ∧ s.v = t.v ∧ s.x_fit = t.x_fit ∧ s.p_best = t.p_best
  ∧ s.p_best_fit = t.p_best_fit ∧ s.p_best_times = t.p_best_times
  ∧ s.neighbor = t.neighbor ∧ s.n_best = t.n_best ∧ s.n_best_fit = t.n_best_fit
  ∧ s.rand_calls = t.rand_calls ∧ s.fit_calls = t.fit_calls

/-- The state of an iteration of `pso_run` under `NOISY` just before the call
of `update_p_best`. -/
def pso_iteration_rescored (e : Env) (c : Config) (s : Swarm) : Swarm :=
  evaluate_best e c (evaluate_particles e c (update_particle_positions e c s))

/-- The state after `k` consecutive iterations of the loop of `pso_run`
started in state `s`. -/
def pso_iterate (e : Env) (c : Config) : Nat → Swarm → Swarm
  | 0, s => s
  | k + 1, s => pso_iteration e c (pso_iterate e c k s)

/-- The sample `fitness(p_best[i])` that `evaluate_best` obtains in the
iteration started in state `s`. -/
def reeval_sample (e : Env) (c : Config) (s : Swarm) (i : Nat) : ℚ :=
  e.fitness ((evaluate_particles e c (update_particle_positions e c s)).fit_calls + i)
    (coeffs c (s.p_best i))

/-- A state whose personal bests have fitness one and were evaluated once. -/
def storedSwarm : Swarm :=
  { zeroSwarm with p_best_fit := fun _ => 1, p_best_times := fun _ => 1 }

/-- Every stored best fitness is the fitness `f` of the stored best position:
for the personal and neighborhood bests of every particle and for the global
best. -/
def fit_consistent (f : List ℚ → ℚ) (c : Config) (s : Swarm) : Prop :=
  (∀ i, i < c.SWARMSIZE → f (coeffs c (s.p_best i)) = s.p_best_fit i)
  ∧ (∀ i, i < c.SWARMSIZE → f (coeffs c (s.n_best i)) = s.n_best_fit i)
  ∧ f (coeffs c s.g_best) = s.g_best_fit

/-- `Pso::pso_run` with the outcome of `fopen` as an input: `opened` tells
whether `fopen` returned a stream.  The code stores the result in `fit_log`
without testing it, so `particles_init` and the statements of the first
iteration that precede `fprintf` run either way.  On a null stream the first
`fprintf` (or `fclose`, when there is no iteration) has undefined behaviour:
the model stops there, with the state reached and no returned position. -/
def pso_run_fopen (e : Env) (c : Config) (opened : Bool) (s : Swarm) :
    Swarm × Option (List ℚ) :=
  if opened then (pso_run_state e c s, some (pso_run e c s))
  else if PSO_ITERATIONS c = 0 then (particles_init e c s, none)
  else (pso_iteration e c (particles_init e c s), none)

/-- The specification's fail-fast behaviour for a log that cannot be opened:
no `rand()` draw and no `fitness` evaluation takes place. -/
def fail_fast (e : Env) (c : Config) (s : Swarm) : Prop :=
  (pso_run_fopen e c false s).1.rand_calls = s.rand_calls
  ∧ (pso_run_fopen e c false s).1.fit_calls = s.fit_calls

/-- The configuration of the end-to-end scenario: one dimension, two
particles, each its own only neighbor, one iteration.  `RAND_MAX` is 2, so
that a `rand()` result of 1 makes `uniform(a, b)` the midpoint of `[a, b]`. -/
def scenario : Config where
  NOISY := false
  DATASIZE := 1
  SWARMSIZE := 2
  TOTAL_ITERATIONS := 1
  MININIT := -10
  MAXINIT := 10
  VMAX := 4
  NEIGH_SIZE := 1
  INERTIA := 3 / 5
  PWEIGHT := 2
  NWEIGHT := 2
  RAND_MAX := 2

/-- The environment of the end-to-end scenario: `rand()` always returns 1 and
the fitness function is the one of the harness. -/
def scenarioEnv : Env where
  rand := fun _ => 1
  fitness := fun _ x => fitness scenario x

/-- The resting state of the end-to-end scenario: both particles sit at
position 0 with velocity 0, every fitness and best fitness is 100000, every
best position is 0, and the neighbor table is the ring. -/
def scenario_rest (t : Swarm) : Prop :=
  (∀ i, i < 2 →
    t.x i 0 = 0 ∧ t.v i 0 = 0 ∧ t.x_fit i = 100000
    ∧ t.p_best_fit i = 100000 ∧ t.p_best i 0 = 0
    ∧ t.n_best_fit i = 100000 ∧ t.n_best i 0 = 0)
  ∧ t.g_best_fit = 100000 ∧ t.g_best 0 = 0 ∧ ring_neighbors scenario t

/-! ## Loops -/

theorem forLoop_succ {σ : Type} (n : Nat) (body : Nat → σ → σ) (s : σ) :
    forLoop (n + 1) body s = body n (forLoop n body s) := rfl

/-- Invariant rule for `forLoop`, with the loop counter. -/
theorem forLoop_inv {σ : Type} (P : Nat → σ → Prop) (body : Nat → σ → σ) (n : Nat) (s : σ)
    (h0 : P 0 s) (hstep : ∀ i t, i < n → P i t → P (i + 1) (body i t)) :
    P n (forLoop n body s) := by
  induction n with
  | zero => exact h0
  | succ k ih =>
    exact hstep k _ (Nat.lt_succ_self k) (ih (fun i t hi hP => hstep i t (Nat.lt_succ_of_lt hi) hP))

/-- A quantity that no iteration changes is not changed by the loop. -/
theorem forLoop_frame {σ α : Type} (f : σ → α) (body : Nat → σ → σ) (n : Nat) (s : σ)
    (h : ∀ i t, i < n → f (body i t) = f t) : f (forLoop n body s) = f s :=
  forLoop_inv (fun _ t => f t = f s) body n s rfl (fun i t hi ht => (h i t hi).trans ht)

theorem copy_particle_apply (c : Config) (org dest : Nat → ℚ) (j : Nat) :
    copy_particle c org dest j = if j < c.DATASIZE then org j else dest j := by
  unfold copy_particle
  induction c.DATASIZE with
  | zero => simp [forLoop]
  | succ k ih =>
    rw [forLoop_succ]
    by_cases h : j = k
    · subst h; simp [set1]
    · have h1 : (j < k + 1) = (j < k) := by
        apply propext; constructor <;> intro h2 <;> omega
      simp only [set1, h, if_false, ih, h1]

/-! ## Ring topology -/

theorem find_neighborhood_step_eq (c : Config) (i j : Nat) (s : Swarm) :
    find_neighborhood_step c i j s = { s with neighbor := set2 s.neighbor i j (ring_index c i j) } := by
  unfold find_neighborhood_step ring_index
  simp only [set2, and_self, if_true]
  split
  · congr 1
    funext k l
    by_cases h : k = i ∧ l = j <;> simp [set2, h]
  · rfl

theorem find_neighborhood_eq (c : Config) (s : Swarm) :
    find_neighborhood c s = { s with neighbor := fun k l =>
      if k < c.SWARMSIZE ∧ l < c.NEIGH_SIZE then ring_index c k l else s.neighbor k l } := by
  unfold find_neighborhood
  have inner : ∀ (i m : Nat) (t : Swarm),
      forLoop m (fun j s => find_neighborhood_step c i j s) t
        = { t with neighbor := fun k l =>
            if k = i ∧ l < m then ring_index c k l else t.neighbor k l } := by
    intro i m t
    induction m with
    | zero => simp [forLoop]
    | succ m ih =>
      rw [forLoop_succ, ih, find_neighborhood_step_eq]
      congr 1
      funext k l
      simp only [set2]
      by_cases hk : k = i
      · subst hk
        by_cases hl : l = m
        · subst hl; simp
        · have : (l < m + 1) = (l < m) := by
            apply propext; constructor <;> intro h2 <;> omega
          simp [hl, this]
      · simp [hk]
  induction c.SWARMSIZE with
  | zero => simp [forLoop]
  | succ n ih =>
    rw [forLoop_succ, ih, inner]
    congr 1
    funext k l
    by_cases hk : k = n
    · subst hk; simp
    · have : (k < n + 1) = (k < n) := by
        apply propext; constructor <;> intro h2 <;> omega
      simp [hk, this]

theorem tmod_wrap (a n : Int) (hn : 0 < n) :
    (if Int.tmod a n < 0 then Int.tmod a n + n else Int.tmod a n) = a % n := by
  by_cases ha : 0 ≤ a
  · rw [Int.tmod_eq_emod ha hn.le]
    have h1 : 0 ≤ a % n := Int.emod_nonneg _ (ne_of_gt hn)
    simp [not_lt.mpr h1]
  · have hb : 0 ≤ -a := by omega
    have h1 : Int.tmod a n = -((-a) % n) := by
      have h2 := Int.tmod_eq_emod hb hn.le
      rw [← h2, Int.tmod_def, Int.tmod_def, Int.neg_tdiv]
      ring
    have hm0 : 0 ≤ (-a) % n := Int.emod_nonneg _ (ne_of_gt hn)
    have hm1 : (-a) % n < n := Int.emod_lt_of_pos _ hn
    have hdec : n * ((-a) / n) + (-a) % n = -a := Int.ediv_add_emod (-a) n
    rw [h1]
    generalize (-a) % n = m at hm0 hm1 hdec
    generalize (-a) / n = q at hdec
    by_cases hm : m = 0
    · have ha2 : a = 0 + n * (-q) := by rw [hm] at hdec; linarith
      have h3 : a % n = 0 := by rw [ha2, Int.add_mul_emod_self_left]; simp
      simp [hm, h3]
    · have hlt : -m < 0 := by omega
      have ha2 : a = (n - m) + n * (-q - 1) := by linarith
      have h3 : a % n = n - m := by
        rw [ha2, Int.add_mul_emod_self_left]
        exact Int.emod_eq_of_lt (by omega) (by omega)
      simp only [hlt, if_true, h3]
      ring

theorem ring_index_eq_emod (c : Config) (hN : 1 ≤ c.SWARMSIZE) (i j : Nat) :
    ring_index c i j
      = ((i : Int) - ((c.NEIGH_SIZE / 2 : Nat) : Int) + (j : Int)) % (c.SWARMSIZE : Int) := by
  unfold ring_index
  have hN0 : (0 : Int) < (c.SWARMSIZE : Int) := by exact_mod_cast hN
  have hdiv : Int.tdiv (c.NEIGH_SIZE : Int) 2 = ((c.NEIGH_SIZE / 2 : Nat) : Int) := by
    rw [Int.tdiv_eq_ediv (Int.ofNat_nonneg _) (by norm_num)]
    norm_cast
  rw [hdiv]
  exact tmod_wrap _ _ hN0

theorem find_neighborhood_neighbor (c : Config) (s : Swarm) (i j : Nat)
    (hi : i < c.SWARMSIZE) (hj : j < c.NEIGH_SIZE) :
    (find_neighborhood c s).neighbor i j = ring_index c i j := by
  rw [find_neighborhood_eq]
  simp [hi, hj]

/-- C4. Ring topology: for a swarm of `N ≥ 1` particles and any neighborhood
size `K`, `find_neighborhood` stores in `neighbor[i][j]` (`i < N`, `j < K`)
the non-negative residue of `i - ⌊K/2⌋ + j` modulo `N`, an index in `[0, N)`;
for `N = 5`, `K = 3` the neighbors of particle 2 are 1, 2, 3 in this order. -/
theorem C4_ring_topology (c : Config) (s : Swarm) (hN : 1 ≤ c.SWARMSIZE) :
    (∀ i j, i < c.SWARMSIZE → j < c.NEIGH_SIZE →
      (find_neighborhood c s).neighbor i j
          = ((i : Int) - ((c.NEIGH_SIZE / 2 : Nat) : Int) + (j : Int)) % (c.SWARMSIZE : Int)
        ∧ 0 ≤ (find_neighborhood c s).neighbor i j
        ∧ (find_neighborhood c s).neighbor i j < (c.SWARMSIZE : Int))
    ∧ (c.SWARMSIZE = 5 → c.NEIGH_SIZE = 3 →
        (find_neighborhood c s).neighbor 2 0 = 1
        ∧ (find_neighborhood c s).neighbor 2 1 = 2
        ∧ (find_neighborhood c s).neighbor 2 2 = 3) := by
  have hN0 : (0 : Int) < (c.SWARMSIZE : Int) := by exact_mod_cast hN
  have main : ∀ i j, i < c.SWARMSIZE → j < c.NEIGH_SIZE →
      (find_neighborhood c s).neighbor i j
        = ((i : Int) - ((c.NEIGH_SIZE / 2 : Nat) : Int) + (j : Int)) % (c.SWARMSIZE : Int) := by
    intro i j hi hj
    rw [find_neighborhood_neighbor c s i j hi hj, ring_index_eq_emod c hN]
  refine ⟨fun i j hi hj => ⟨main i j hi hj, ?_, ?_⟩, fun h5 h3 => ?_⟩
  · rw [main i j hi hj]; exact Int.emod_nonneg _ (ne_of_gt hN0)
  · rw [main i j hi hj]; exact Int.emod_lt_of_pos _ hN0
  · rw [main 2 0 (by omega) (by omega), main 2 1 (by omega) (by omega),
      main 2 2 (by omega) (by omega), h5, h3]
    decide

theorem C4_ring_topology_witness :
    1 ≤ header5.SWARMSIZE
    ∧ (find_neighborhood header5 zeroSwarm).neighbor 2 0 = 1
    ∧ (find_neighborhood header5 zeroSwarm).neighbor 2 1 = 2
    ∧ (find_neighborhood header5 zeroSwarm).neighbor 2 2 = 3 :=
  ⟨by decide, (C4_ring_topology header5 zeroSwarm (by decide)).2 rfl rfl⟩

/-! ## Personal bests -/

theorem lt_succ_eq (k n : Nat) (h : ¬ k = n) : (k < n + 1) = (k < n) := by
  apply propext; constructor <;> intro h2 <;> omega

/-- Closed form of `update_p_best`: particle `i < SWARMSIZE` is overwritten
exactly when its fitness is strictly better than its stored personal best. -/
theorem update_p_best_eq (c : Config) (s : Swarm) :
    update_p_best c s = { s with
      p_best_fit := fun i =>
        if i < c.SWARMSIZE ∧ s.x_fit i > s.p_best_fit i then s.x_fit i else s.p_best_fit i
      p_best := fun i =>
        if i < c.SWARMSIZE ∧ s.x_fit i > s.p_best_fit i
        then copy_particle c (s.x i) (s.p_best i) else s.p_best i
      p_best_times := fun i =>
        if i < c.SWARMSIZE ∧ s.x_fit i > s.p_best_fit i then 1 else s.p_best_times i } := by
  unfold update_p_best
  induction c.SWARMSIZE with
  | zero => simp [forLoop]
  | succ n ih =>
    rw [forLoop_succ, ih]
    unfold update_p_best_step
    simp only [lt_self_iff_false, false_and, if_false]
    by_cases hc : s.x_fit n > s.p_best_fit n
    · simp only [hc, if_true]
      congr 1 <;> funext k <;> by_cases hk : k = n
      · subst hk; simp [set1, hc]
      · simp [set1, hk, lt_succ_eq k n hk]
      · subst hk; simp [set1, hc]
      · simp [set1, hk, lt_succ_eq k n hk]
      · subst hk; simp [set1, hc]
      · simp [set1, hk, lt_succ_eq k n hk]
    · simp only [hc, if_false]
      congr 1 <;> funext k <;> by_cases hk : k = n
      · subst hk; simp [hc]
      · simp [hk, lt_succ_eq k n hk]
      · subst hk; simp [hc]
      · simp [hk, lt_succ_eq k n hk]
      · subst hk; simp [hc]
      · simp [hk, lt_succ_eq k n hk]

theorem update_p_best_overwrite (c : Config) (s : Swarm) (i : Nat) (hi : i < c.SWARMSIZE)
    (h : s.x_fit i > s.p_best_fit i) :
    (∀ j, j < c.DATASIZE → (update_p_best c s).p_best i j = s.x i j)
    ∧ (update_p_best c s).p_best_times i = 1 := by
  rw [update_p_best_eq]
  refine ⟨fun j hj => ?_, ?_⟩
  · simp [hi, h, copy_particle_apply, hj]
  · simp [hi, h]

/-- C6. Personal-best update is strict: for particle `i < SWARMSIZE`,
`update_p_best` replaces the stored position (its `DATASIZE` coefficients),
fitness and evaluation count by those of the current position and 1 when
`x_fit[i] > p_best_fit[i]`, and leaves all three as they are when
`x_fit[i] ≤ p_best_fit[i]` (an equal fitness does not overwrite). -/
theorem C6_update_p_best_strict (c : Config) (s : Swarm) (i : Nat) (hi : i < c.SWARMSIZE) :
    (s.x_fit i > s.p_best_fit i →
      (∀ j, j < c.DATASIZE → (update_p_best c s).p_best i j = s.x i j)
      ∧ (update_p_best c s).p_best_fit i = s.x_fit i
      ∧ (update_p_best c s).p_best_times i = 1)
    ∧ (s.x_fit i ≤ s.p_best_fit i →
      (update_p_best c s).p_best i = s.p_best i
      ∧ (update_p_best c s).p_best_fit i = s.p_best_fit i
      ∧ (update_p_best c s).p_best_times i = s.p_best_times i) := by
  rw [update_p_best_eq]
  constructor
  · intro h
    refine ⟨fun j hj => ?_, ?_, ?_⟩
    · simp [hi, h, copy_particle_apply, hj]
    · simp [hi, h]
    · simp [hi, h]
  · intro h
    have h2 : ¬ (s.x_fit i > s.p_best_fit i) := not_lt.mpr h
    simp [h2]

theorem C6_update_p_best_strict_witness :
    (0 : Nat) < header.SWARMSIZE
    ∧ (zeroSwarm.x_fit 0 ≤ zeroSwarm.p_best_fit 0 →
      (update_p_best header zeroSwarm).p_best 0 = zeroSwarm.p_best 0
      ∧ (update_p_best header zeroSwarm).p_best_fit 0 = zeroSwarm.p_best_fit 0
      ∧ (update_p_best header zeroSwarm).p_best_times 0 = zeroSwarm.p_best_times 0) :=
  ⟨by decide, (C6_update_p_best_strict header zeroSwarm 0 (by decide)).2⟩

/-! ## Velocity and position update -/

theorem new_velocity_congr (c : Config) (s t : Swarm) (i j r1 r2 : Nat)
    (hv : t.v i j = s.v i j) (hx : t.x i j = s.x i j)
    (hp : t.p_best i j = s.p_best i j) (hn : t.n_best i j = s.n_best i j) :
    new_velocity c t i j r1 r2 = new_velocity c s i j r1 r2 := by
  unfold new_velocity
  rw [hv, hx, hp, hn]

/-- The inner loop of `update_particle_positions` for particle `i`, run for
the dimensions below `m`. -/
theorem update_particle_positions_row (e : Env) (c : Config) (i m : Nat) (t : Swarm) :
    forLoop m (fun j s => update_particle_positions_step e c i j s) t = { t with
      v := fun k l => if k = i ∧ l < m
        then new_velocity c t k l (e.rand (t.rand_calls + 2 * l)) (e.rand (t.rand_calls + 2 * l + 1))
        else t.v k l
      x := fun k l => if k = i ∧ l < m
        then t.x k l + new_velocity c t k l (e.rand (t.rand_calls + 2 * l))
          (e.rand (t.rand_calls + 2 * l + 1))
        else t.x k l
      rand_calls := t.rand_calls + 2 * m } := by
  induction m with
  | zero => simp [forLoop]
  | succ m ih =>
    rw [forLoop_succ, ih]
    unfold update_particle_positions_step
    simp only [lt_self_iff_false, and_false, if_false]
    have hnv : ∀ r1 r2, new_velocity c
        { t with
          v := fun k l => if k = i ∧ l < m
            then new_velocity c t k l (e.rand (t.rand_calls + 2 * l)) (e.rand (t.rand_calls + 2 * l + 1))
            else t.v k l
          x := fun k l => if k = i ∧ l < m
            then t.x k l + new_velocity c t k l (e.rand (t.rand_calls + 2 * l))
              (e.rand (t.rand_calls + 2 * l + 1))
            else t.x k l
          rand_calls := t.rand_calls + 2 * m } i m r1 r2 = new_velocity c t i m r1 r2 := by
      intro r1 r2
      apply new_velocity_congr <;> simp
    rw [hnv]
    congr 1
    · funext k l
      by_cases hk : k = i ∧ l = m
      · obtain ⟨rfl, rfl⟩ := hk; simp [set2]
      · have hl : k = i → ¬ l = m := fun h1 h2 => hk ⟨h1, h2⟩
        by_cases hki : k = i
        · simp [set2, hki, hl hki, lt_succ_eq l m (hl hki)]
        · simp [set2, hki]
    · funext k l
      by_cases hk : k = i ∧ l = m
      · obtain ⟨rfl, rfl⟩ := hk; simp [set2]
      · have hl : k = i → ¬ l = m := fun h1 h2 => hk ⟨h1, h2⟩
        by_cases hki : k = i
        · simp [set2, hki, hl hki, lt_succ_eq l m (hl hki)]
        · simp [set2, hki]

/-- Closed form of `update_particle_positions`: the draws for `v[i][j]` are
calls number `2 * (i * DATASIZE + j)` and the next one, counted from the
start of the function, and every difference uses the position from before the
update. -/
theorem update_particle_positions_eq (e : Env) (c : Config) (s : Swarm) :
    update_particle_positions e c s = { s with
      v := fun k l => if k < c.SWARMSIZE ∧ l < c.DATASIZE
        then new_velocity c s k l (e.rand (s.rand_calls + 2 * (k * c.DATASIZE + l)))
          (e.rand (s.rand_calls + 2 * (k * c.DATASIZE + l) + 1))
        else s.v k l
      x := fun k l => if k < c.SWARMSIZE ∧ l < c.DATASIZE
        then s.x k l + new_velocity c s k l (e.rand (s.rand_calls + 2 * (k * c.DATASIZE + l)))
          (e.rand (s.rand_calls + 2 * (k * c.DATASIZE + l) + 1))
        else s.x k l
      rand_calls := s.rand_calls + 2 * (c.SWARMSIZE * c.DATASIZE) } := by
  unfold update_particle_positions
  induction c.SWARMSIZE with
  | zero => simp [forLoop]
  | succ n ih =>
    rw [forLoop_succ, ih, update_particle_positions_row]
    have hnv : ∀ l r1 r2, new_velocity c
        { s with
          v := fun k l => if k < n ∧ l < c.DATASIZE
            then new_velocity c s k l (e.rand (s.rand_calls + 2 * (k * c.DATASIZE + l)))
              (e.rand (s.rand_calls + 2 * (k * c.DATASIZE + l) + 1))
            else s.v k l
          x := fun k l => if k < n ∧ l < c.DATASIZE
            then s.x k l + new_velocity c s k l (e.rand (s.rand_calls + 2 * (k * c.DATASIZE + l)))
              (e.rand (s.rand_calls + 2 * (k * c.DATASIZE + l) + 1))
            else s.x k l
          rand_calls := s.rand_calls + 2 * (n * c.DATASIZE) } n l r1 r2
        = new_velocity c s n l r1 r2 := by
      intro l r1 r2
      apply new_velocity_congr <;> simp
    have hrc : ∀ l, s.rand_calls + 2 * (n * c.DATASIZE) + 2 * l
        = s.rand_calls + 2 * (n * c.DATASIZE + l) := by intro l; ring
    congr 1
    · funext k l
      by_cases hk : k = n
      · subst hk; simp [hnv, hrc]
      · simp [hk, lt_succ_eq k n hk]
    · funext k l
      by_cases hk : k = n
      · subst hk; simp [hnv, hrc]
      · simp [hk, lt_succ_eq k n hk]
    · simp only []
      ring

theorem new_velocity_eq_clamp (c : Config) (hV : 0 ≤ c.VMAX) (s : Swarm) (i j r1 r2 : Nat) :
    new_velocity c s i j r1 r2
      = clamp (c.INERTIA * s.v i j + c.PWEIGHT * uniform c r1 0 1 * (s.p_best i j - s.x i j)
          + c.NWEIGHT * uniform c r2 0 1 * (s.n_best i j - s.x i j)) (-c.VMAX) c.VMAX := by
  unfold new_velocity clamp
  simp only []
  generalize c.INERTIA * s.v i j + c.PWEIGHT * uniform c r1 0 1 * (s.p_best i j - s.x i j)
    + c.NWEIGHT * uniform c r2 0 1 * (s.n_best i j - s.x i j) = w
  by_cases h1 : w > c.VMAX
  · have h2 : ¬ c.VMAX < -c.VMAX := by linarith
    have h3 : -c.VMAX ≤ w := by linarith
    rw [if_pos h1, if_neg h2, max_eq_left h3, min_eq_right (le_of_lt h1)]
  · rw [if_neg h1]
    have h1b : w ≤ c.VMAX := not_lt.mp h1
    by_cases h2 : w < -c.VMAX
    · rw [if_pos h2, max_eq_right (le_of_lt h2), min_eq_left (by linarith)]
    · rw [if_neg h2, max_eq_left (not_lt.mp h2), min_eq_left h1b]

theorem new_velocity_bounded (c : Config) (hV : 0 ≤ c.VMAX) (s : Swarm) (i j r1 r2 : Nat) :
    -c.VMAX ≤ new_velocity c s i j r1 r2 ∧ new_velocity c s i j r1 r2 ≤ c.VMAX := by
  rw [new_velocity_eq_clamp c hV]
  unfold clamp
  exact ⟨le_min (le_max_right _ _) (by linarith), min_le_right _ _⟩

/-- C5. Update rule: with `0 ≤ VMAX`, for particle `i < SWARMSIZE` and
dimension `j < DATASIZE`, `update_particle_positions` stores in `v[i][j]` the
value `clamp(INERTIA*v + PWEIGHT*r1*(p_best - x) + NWEIGHT*r2*(n_best - x),
-VMAX, VMAX)`, where `v`, `x`, `p_best`, `n_best` are the components `[i][j]`
before the update and `r1`, `r2` the two `uniform(0,1)` draws, and stores in
`x[i][j]` the old position plus the new velocity, without clamping it. -/
theorem C5_update_rule (e : Env) (c : Config) (hV : 0 ≤ c.VMAX) (s : Swarm) (i j : Nat)
    (hi : i < c.SWARMSIZE) (hj : j < c.DATASIZE) :
    (update_particle_positions e c s).v i j
      = clamp (c.INERTIA * s.v i j
          + c.PWEIGHT * uniform c (e.rand (s.rand_calls + 2 * (i * c.DATASIZE + j))) 0 1
              * (s.p_best i j - s.x i j)
          + c.NWEIGHT * uniform c (e.rand (s.rand_calls + 2 * (i * c.DATASIZE + j) + 1)) 0 1
              * (s.n_best i j - s.x i j)) (-c.VMAX) c.VMAX
    ∧ (update_particle_positions e c s).x i j
      = s.x i j + (update_particle_positions e c s).v i j := by
  rw [update_particle_positions_eq]
  simp only [hi, hj, and_self, if_true]
  exact ⟨new_velocity_eq_clamp c hV s i j _ _, trivial⟩

theorem C5_update_rule_witness :
    (0 : ℚ) ≤ header.VMAX ∧ (0 : Nat) < header.SWARMSIZE ∧ (0 : Nat) < header.DATASIZE
    ∧ (update_particle_positions env0 header zeroSwarm).x 0 0
      = zeroSwarm.x 0 0 + (update_particle_positions env0 header zeroSwarm).v 0 0 :=
  ⟨by norm_num [header], by decide, by decide,
    (C5_update_rule env0 header (by norm_num [header]) zeroSwarm 0 0 (by decide) (by decide)).2⟩

/-! ## Neighborhood and global bests -/

theorem set1_self {α : Type} (a : Nat → α) (i : Nat) : set1 a i (a i) = a := by
  funext k
  by_cases h : k = i <;> simp [set1, h]

theorem set1_set1 {α : Type} (a : Nat → α) (i : Nat) (u w : α) :
    set1 (set1 a i u) i w = set1 a i w := by
  funext k
  by_cases h : k = i <;> simp [set1, h]

theorem set1_same {α : Type} (a : Nat → α) (i : Nat) (u : α) : set1 a i u i = u := by
  simp [set1]

/-- The inner loop of `update_n_best` for particle `i`, run for the slots
below `m`. -/
theorem update_n_best_slots (c : Config) (i m : Nat) (t : Swarm) :
    forLoop m (update_n_best_slot c i) t = { t with
      n_best_fit := set1 t.n_best_fit i
        (scan_fit t.p_best_fit (t.neighbor i) (t.n_best_fit i) m)
      n_best := set1 t.n_best i
        (scan_pos c t.p_best_fit t.p_best (t.neighbor i) (t.n_best_fit i) (t.n_best i) m) } := by
  induction m with
  | zero => simp [forLoop, scan_fit, scan_pos, set1_self]
  | succ m ih =>
    rw [forLoop_succ, ih]
    unfold update_n_best_slot
    simp only [set1_same, set1_set1]
    by_cases h : t.p_best_fit (t.neighbor i m).toNat
        > scan_fit t.p_best_fit (t.neighbor i) (t.n_best_fit i) m
    · simp only [gt_iff_lt] at h
      simp [scan_fit, scan_pos, h]
    · simp only [gt_iff_lt] at h
      simp [scan_fit, scan_pos, h]

/-- Closed form of `update_n_best`. -/
theorem update_n_best_eq (c : Config) (s : Swarm) :
    update_n_best c s = { s with
      n_best_fit := fun i => if i < c.SWARMSIZE then nfit c s i else s.n_best_fit i
      n_best := fun i => if i < c.SWARMSIZE then npos c s i else s.n_best i
      g_best_fit := gfit c s c.SWARMSIZE
      g_best := gpos c s c.SWARMSIZE } := by
  unfold update_n_best
  induction c.SWARMSIZE with
  | zero => simp [forLoop, gfit, gpos]
  | succ n ih =>
    rw [forLoop_succ, ih]
    unfold update_n_best_step
    rw [update_n_best_slots]
    unfold update_g_best_step
    simp only [set1_same, lt_self_iff_false, if_false]
    have h1 : scan_fit s.p_best_fit (s.neighbor n) (s.n_best_fit n) c.NEIGH_SIZE = nfit c s n := rfl
    have h2 : scan_pos c s.p_best_fit s.p_best (s.neighbor n) (s.n_best_fit n) (s.n_best n)
        c.NEIGH_SIZE = npos c s n := rfl
    rw [h1, h2]
    have hf : set1 (fun i => if i < n then nfit c s i else s.n_best_fit i) n (nfit c s n)
        = fun i => if i < n + 1 then nfit c s i else s.n_best_fit i := by
      funext k
      by_cases hk : k = n
      · subst hk; simp [set1]
      · simp [set1, hk, lt_succ_eq k n hk]
    have hp : set1 (fun i => if i < n then npos c s i else s.n_best i) n (npos c s n)
        = fun i => if i < n + 1 then npos c s i else s.n_best i := by
      funext k
      by_cases hk : k = n
      · subst hk; simp [set1]
      · simp [set1, hk, lt_succ_eq k n hk]
    rw [hf, hp]
    by_cases h : nfit c s n > gfit c s n
    · simp only [gt_iff_lt] at h
      simp [gfit, gpos, h]
    · simp only [gt_iff_lt] at h
      simp [gfit, gpos, h]

/-! ## Fitness evaluation -/

/-- Closed form of `evaluate_particles`: particle `i` is scored by call number
`i` of `fitness`, counted from the start of the function. -/
theorem evaluate_particles_eq (e : Env) (c : Config) (s : Swarm) :
    evaluate_particles e c s = { s with
      x_fit := fun i => if i < c.SWARMSIZE
        then e.fitness (s.fit_calls + i) (coeffs c (s.x i)) else s.x_fit i
      fit_calls := s.fit_calls + c.SWARMSIZE } := by
  unfold evaluate_particles
  induction c.SWARMSIZE with
  | zero => simp [forLoop]
  | succ n ih =>
    rw [forLoop_succ, ih]
    unfold evaluate_particles_step
    congr 1
    funext k
    by_cases hk : k = n
    · subst hk; simp [set1]
    · simp [set1, hk, lt_succ_eq k n hk]

/-- Closed form of `evaluate_best`. -/
theorem evaluate_best_eq (e : Env) (c : Config) (s : Swarm) :
    evaluate_best e c s = { s with
      p_best_fit := fun i => if i < c.SWARMSIZE
        then (s.p_best_fit i * (s.p_best_times i : ℚ)
            + e.fitness (s.fit_calls + i) (coeffs c (s.p_best i))) / ((s.p_best_times i : ℚ) + 1)
        else s.p_best_fit i
      p_best_times := fun i => if i < c.SWARMSIZE then s.p_best_times i + 1 else s.p_best_times i
      fit_calls := s.fit_calls + c.SWARMSIZE } := by
  unfold evaluate_best
  induction c.SWARMSIZE with
  | zero => simp [forLoop]
  | succ n ih =>
    rw [forLoop_succ, ih]
    unfold evaluate_best_step
    simp only [lt_self_iff_false, if_false]
    congr 1
    · funext k
      by_cases hk : k = n
      · subst hk; simp [set1]
      · simp [set1, hk, lt_succ_eq k n hk]
    · funext k
      by_cases hk : k = n
      · subst hk; simp [set1]
      · simp [set1, hk, lt_succ_eq k n hk]

/-! ## Initialization -/

/-- The inner loop of `particles_init` for particle `i`, run for the
dimensions below `m`. -/
theorem particles_init_draws (e : Env) (c : Config) (i m : Nat) (t : Swarm) :
    forLoop m (particles_init_draw e c i) t = { t with
      x := fun k l => if k = i ∧ l < m
        then uniform c (e.rand (t.rand_calls + 2 * l)) c.MININIT c.MAXINIT else t.x k l
      v := fun k l => if k = i ∧ l < m
        then uniform c (e.rand (t.rand_calls + 2 * l + 1)) (-c.VMAX) c.VMAX else t.v k l
      rand_calls := t.rand_calls + 2 * m } := by
  induction m with
  | zero => simp [forLoop]
  | succ m ih =>
    rw [forLoop_succ, ih]
    unfold particles_init_draw
    congr 1
    · funext k l
      by_cases hk : k = i ∧ l = m
      · obtain ⟨rfl, rfl⟩ := hk; simp [set2]
      · have hl : k = i → ¬ l = m := fun h1 h2 => hk ⟨h1, h2⟩
        by_cases hki : k = i
        · simp [set2, hki, hl hki, lt_succ_eq l m (hl hki)]
        · simp [set2, hki]
    · funext k l
      by_cases hk : k = i ∧ l = m
      · obtain ⟨rfl, rfl⟩ := hk; simp [set2]
      · have hl : k = i → ¬ l = m := fun h1 h2 => hk ⟨h1, h2⟩
        by_cases hki : k = i
        · simp [set2, hki, hl hki, lt_succ_eq l m (hl hki)]
        · simp [set2, hki]

/-- Closed form of the first part of `particles_init`. -/
theorem particles_init_reset_eq (e : Env) (c : Config) (s : Swarm) :
    particles_init_reset e c s = { s with
      x := fun k l => if k < c.SWARMSIZE ∧ l < c.DATASIZE
        then uniform c (e.rand (s.rand_calls + 2 * (k * c.DATASIZE + l))) c.MININIT c.MAXINIT
        else s.x k l
      v := fun k l => if k < c.SWARMSIZE ∧ l < c.DATASIZE
        then uniform c (e.rand (s.rand_calls + 2 * (k * c.DATASIZE + l) + 1)) (-c.VMAX) c.VMAX
        else s.v k l
      x_fit := fun k => if k < c.SWARMSIZE then -1 else s.x_fit k
      p_best_fit := fun k => if k < c.SWARMSIZE then -1 else s.p_best_fit k
      n_best_fit := fun k => if k < c.SWARMSIZE then -1 else s.n_best_fit k
      g_best_fit := -1
      rand_calls := s.rand_calls + 2 * (c.SWARMSIZE * c.DATASIZE) } := by
  unfold particles_init_reset
  have loop : ∀ n, forLoop n (particles_init_step e c) s = { s with
      x := fun k l => if k < n ∧ l < c.DATASIZE
        then uniform c (e.rand (s.rand_calls + 2 * (k * c.DATASIZE + l))) c.MININIT c.MAXINIT
        else s.x k l
      v := fun k l => if k < n ∧ l < c.DATASIZE
        then uniform c (e.rand (s.rand_calls + 2 * (k * c.DATASIZE + l) + 1)) (-c.VMAX) c.VMAX
        else s.v k l
      x_fit := fun k => if k < n then -1 else s.x_fit k
      p_best_fit := fun k => if k < n then -1 else s.p_best_fit k
      n_best_fit := fun k => if k < n then -1 else s.n_best_fit k
      rand_calls := s.rand_calls + 2 * (n * c.DATASIZE) } := by
    intro n
    induction n with
    | zero => simp [forLoop]
    | succ n ih =>
      rw [forLoop_succ, ih]
      unfold particles_init_step
      rw [particles_init_draws]
      dsimp only
      have hrc : ∀ l, s.rand_calls + 2 * (n * c.DATASIZE) + 2 * l
          = s.rand_calls + 2 * (n * c.DATASIZE + l) := by intro l; ring
      congr 1
      · funext k l
        by_cases hk : k = n
        · subst hk; simp [hrc]
        · simp [hk, lt_succ_eq k n hk]
      · funext k l
        by_cases hk : k = n
        · subst hk; simp [hrc]
        · simp [hk, lt_succ_eq k n hk]
      · funext k
        by_cases hk : k = n
        · subst hk; simp [set1]
        · simp [set1, hk, lt_succ_eq k n hk]
      · funext k
        by_cases hk : k = n
        · subst hk; simp [set1]
        · simp [set1, hk, lt_succ_eq k n hk]
      · funext k
        by_cases hk : k = n
        · subst hk; simp [set1]
        · simp [set1, hk, lt_succ_eq k n hk]
      · ring
  rw [loop]

/-! ## What each phase leaves unchanged -/

theorem particles_init_v (e : Env) (c : Config) (s : Swarm) :
    (particles_init e c s).v = (particles_init_reset e c s).v := by
  unfold particles_init
  rw [update_n_best_eq, find_neighborhood_eq, update_p_best_eq, evaluate_particles_eq]

theorem particles_init_x (e : Env) (c : Config) (s : Swarm) :
    (particles_init e c s).x = (particles_init_reset e c s).x := by
  unfold particles_init
  rw [update_n_best_eq, find_neighborhood_eq, update_p_best_eq, evaluate_particles_eq]

theorem particles_init_fit_log (e : Env) (c : Config) (s : Swarm) :
    (particles_init e c s).fit_log = s.fit_log := by
  unfold particles_init
  rw [update_n_best_eq, find_neighborhood_eq, update_p_best_eq, evaluate_particles_eq,
    particles_init_reset_eq]

theorem pso_iteration_v (e : Env) (c : Config) (s : Swarm) :
    (pso_iteration e c s).v = (update_particle_positions e c s).v := by
  unfold pso_iteration
  cases c.NOISY
  · simp only [Bool.false_eq_true, if_false]
    rw [update_n_best_eq, update_p_best_eq, evaluate_particles_eq]
  · simp only [if_true]
    rw [update_n_best_eq, update_p_best_eq, evaluate_best_eq, evaluate_particles_eq]

theorem pso_iteration_fit_log (e : Env) (c : Config) (s : Swarm) :
    (pso_iteration e c s).fit_log = s.fit_log := by
  unfold pso_iteration
  cases c.NOISY
  · simp only [Bool.false_eq_true, if_false]
    rw [update_n_best_eq, update_p_best_eq, evaluate_particles_eq, update_particle_positions_eq]
  · simp only [if_true]
    rw [update_n_best_eq, update_p_best_eq, evaluate_best_eq, evaluate_particles_eq,
      update_particle_positions_eq]

theorem pso_run_step_v (e : Env) (c : Config) (i : Nat) (s : Swarm) :
    (pso_run_step e c i s).v = (update_particle_positions e c s).v := by
  unfold pso_run_step
  exact pso_iteration_v e c s

/-! ## Bounds -/

theorem uniform_mem (c : Config) (r : Nat) (min max : ℚ) (hr : r ≤ c.RAND_MAX)
    (hmm : min ≤ max) : min ≤ uniform c r min max ∧ uniform c r min max ≤ max := by
  unfold uniform
  have hr0 : (0 : ℚ) ≤ (r : ℚ) := Nat.cast_nonneg r
  have hrm : (r : ℚ) ≤ (c.RAND_MAX : ℚ) := by exact_mod_cast hr
  have hd : (0 : ℚ) ≤ max - min := by linarith
  have ht0 : 0 ≤ (r : ℚ) / (c.RAND_MAX : ℚ) := div_nonneg hr0 (le_trans hr0 hrm)
  have ht1 : (r : ℚ) / (c.RAND_MAX : ℚ) ≤ 1 := div_le_one_of_le₀ hrm (le_trans hr0 hrm)
  rw [mul_div_assoc]
  constructor
  · have := mul_nonneg hd ht0
    linarith
  · have := mul_le_mul_of_nonneg_left ht1 hd
    linarith

theorem vel_bounded_update (e : Env) (c : Config) (hV : 0 ≤ c.VMAX) (s : Swarm) :
    vel_bounded c (update_particle_positions e c s) := by
  intro i j hi hj
  rw [update_particle_positions_eq]
  simp only [hi, hj, and_self, if_true]
  exact new_velocity_bounded c hV s i j _ _

theorem vel_bounded_init (e : Env) (c : Config) (s : Swarm)
    (hU : ∀ k, -c.VMAX ≤ uniform c (e.rand k) (-c.VMAX) c.VMAX
      ∧ uniform c (e.rand k) (-c.VMAX) c.VMAX ≤ c.VMAX) :
    vel_bounded c (particles_init e c s) := by
  intro i j hi hj
  rw [particles_init_v, particles_init_reset_eq]
  simp only [hi, hj, and_self, if_true]
  exact hU _

/-- C9. Initialization bounds: for a `rand()` result `0 ≤ r ≤ RAND_MAX` and
`min ≤ max`, `uniform(min, max)` lies in `[min, max]`; hence, when
`MININIT ≤ MAXINIT` and `0 ≤ VMAX`, after `particles_init` every position
component lies in `[MININIT, MAXINIT]` and every velocity component in
`[-VMAX, VMAX]`. -/
theorem C9_initialization_bounds (e : Env) (c : Config) :
    (∀ (r : Nat) (min max : ℚ), r ≤ c.RAND_MAX → min ≤ max →
      min ≤ uniform c r min max ∧ uniform c r min max ≤ max)
    ∧ ((∀ k, e.rand k ≤ c.RAND_MAX) → c.MININIT ≤ c.MAXINIT → 0 ≤ c.VMAX →
      ∀ (s : Swarm) (i j : Nat), i < c.SWARMSIZE → j < c.DATASIZE →
        (c.MININIT ≤ (particles_init e c s).x i j ∧ (particles_init e c s).x i j ≤ c.MAXINIT)
        ∧ (-c.VMAX ≤ (particles_init e c s).v i j ∧ (particles_init e c s).v i j ≤ c.VMAX)) := by
  refine ⟨fun r min max hr hmm => uniform_mem c r min max hr hmm, ?_⟩
  intro hR hM hV s i j hi hj
  constructor
  · rw [particles_init_x, particles_init_reset_eq]
    simp only [hi, hj, and_self, if_true]
    exact uniform_mem c _ _ _ (hR _) hM
  · exact vel_bounded_init e c s (fun k => uniform_mem c _ _ _ (hR k) (by linarith)) i j hi hj

theorem C9_initialization_bounds_witness :
    (∀ k, env0.rand k ≤ header.RAND_MAX) ∧ header.MININIT ≤ header.MAXINIT ∧ 0 ≤ header.VMAX
    ∧ (header.MININIT ≤ (particles_init env0 header zeroSwarm).x 0 0
        ∧ (particles_init env0 header zeroSwarm).x 0 0 ≤ header.MAXINIT)
    ∧ (-header.VMAX ≤ (particles_init env0 header zeroSwarm).v 0 0
        ∧ (particles_init env0 header zeroSwarm).v 0 0 ≤ header.VMAX) :=
  ⟨fun _ => Nat.zero_le _, by norm_num [header], by norm_num [header],
    (C9_initialization_bounds env0 header).2 (fun _ => Nat.zero_le _) (by norm_num [header])
      (by norm_num [header]) zeroSwarm 0 0 (by decide) (by decide)⟩

theorem pso_run_after_succ (e : Env) (c : Config) (k : Nat) (s : Swarm) :
    pso_run_after e c (k + 1) s = pso_run_step e c k (pso_run_after e c k s) := rfl

/-- C1. Velocity bound: with `0 ≤ VMAX`, in every state and for every
sequence of `rand()` results, every velocity component lies in
`[-VMAX, VMAX]` right after `update_particle_positions`; the evaluation and
best-tracking functions leave `v` unchanged; and when every `uniform(a, b)`
draw lies in `[a, b]`, the bound holds after `particles_init` and after every
iteration of `pso_run`. -/
theorem C1_velocity_bound (e : Env) (c : Config) (hV : 0 ≤ c.VMAX) :
    (∀ s, vel_bounded c (update_particle_positions e c s))
    ∧ (∀ s, (evaluate_particles e c s).v = s.v ∧ (evaluate_best e c s).v = s.v
        ∧ (update_p_best c s).v = s.v ∧ (update_n_best c s).v = s.v)
    ∧ ((∀ k a b, a ≤ b → a ≤ uniform c (e.rand k) a b ∧ uniform c (e.rand k) a b ≤ b) →
      ∀ s, vel_bounded c (particles_init e c s)
        ∧ ∀ k, k ≤ PSO_ITERATIONS c → vel_bounded c (pso_run_after e c k s)) := by
  refine ⟨fun s => vel_bounded_update e c hV s, fun s => ⟨?_, ?_, ?_, ?_⟩, ?_⟩
  · rw [evaluate_particles_eq]
  · rw [evaluate_best_eq]
  · rw [update_p_best_eq]
  · rw [update_n_best_eq]
  · intro hU s
    have hU2 : ∀ k, -c.VMAX ≤ uniform c (e.rand k) (-c.VMAX) c.VMAX
        ∧ uniform c (e.rand k) (-c.VMAX) c.VMAX ≤ c.VMAX :=
      fun k => hU k (-c.VMAX) c.VMAX (by linarith)
    refine ⟨vel_bounded_init e c s hU2, fun k _ => ?_⟩
    cases k with
    | zero => exact vel_bounded_init e c _ hU2
    | succ k =>
      intro i j hi hj
      rw [pso_run_after_succ, pso_run_step_v]
      exact vel_bounded_update e c hV _ i j hi hj

theorem C1_velocity_bound_witness :
    (0 : ℚ) ≤ header.VMAX ∧ vel_bounded header (update_particle_positions env0 header zeroSwarm) :=
  ⟨by norm_num [header], (C1_velocity_bound env0 header (by norm_num [header])).1 zeroSwarm⟩

/-! ## Monotonicity of the global best -/

theorem gfit_ge_start (c : Config) (s : Swarm) (n : Nat) : s.g_best_fit ≤ gfit c s n := by
  induction n with
  | zero => exact le_refl _
  | succ n ih =>
    unfold gfit
    split
    · next h => exact le_trans ih (le_of_lt h)
    · exact ih

theorem update_n_best_g_mono (c : Config) (s : Swarm) :
    s.g_best_fit ≤ (update_n_best c s).g_best_fit := by
  rw [update_n_best_eq]
  exact gfit_ge_start c s c.SWARMSIZE

theorem pso_iteration_g_mono (e : Env) (c : Config) (s : Swarm) :
    s.g_best_fit ≤ (pso_iteration e c s).g_best_fit := by
  unfold pso_iteration
  refine le_trans (le_of_eq ?_) (update_n_best_g_mono c _)
  cases c.NOISY
  · simp only [Bool.false_eq_true, if_false]
    rw [update_p_best_eq, evaluate_particles_eq, update_particle_positions_eq]
  · simp only [if_true]
    rw [update_p_best_eq, evaluate_best_eq, evaluate_particles_eq, update_particle_positions_eq]

theorem pso_run_after_g_mono (e : Env) (c : Config) (k : Nat) (s : Swarm) :
    (pso_run_after e c k s).g_best_fit ≤ (pso_run_after e c (k + 1) s).g_best_fit := by
  rw [pso_run_after_succ]
  exact pso_iteration_g_mono e c _

/-- The log after `k` iterations: record `i` holds the global-best fitness at
the end of iteration `i`. -/
theorem pso_run_after_log (e : Env) (c : Config) (k : Nat) (s : Swarm) :
    (pso_run_after e c k s).fit_log
      = (List.range k).map (fun i => (i, (pso_run_after e c (i + 1) s).g_best_fit)) := by
  induction k with
  | zero =>
    show (particles_init e c { s with fit_log := [] }).fit_log = _
    rw [particles_init_fit_log]
    rfl
  | succ k ih =>
    have h1 : (pso_run_after e c (k + 1) s).fit_log
        = (pso_run_after e c k s).fit_log ++ [(k, (pso_run_after e c (k + 1) s).g_best_fit)] := by
      rw [pso_run_after_succ]
      unfold pso_run_step
      simp only [pso_iteration_fit_log]
    rw [h1, ih, List.range_succ, List.map_append]
    rfl

/-- C2. Global-best fitness is monotone: for every fitness function (noisy
or not), every sequence of `rand()` results and both settings of `NOISY`,
`update_n_best` never decreases `g_best_fit`, and for `k + 1 <
PSO_ITERATIONS` the log of `pso_run` holds a record `(k, a)` at position `k`
and a record `(k + 1, b)` at position `k + 1` with `a ≤ b`. -/
theorem C2_global_best_monotone (e : Env) (c : Config) (s : Swarm) :
    (∀ t, t.g_best_fit ≤ (update_n_best c t).g_best_fit)
    ∧ (∀ k, k + 1 < PSO_ITERATIONS c →
      ∃ a b, (pso_run_state e c s).fit_log[k]? = some (k, a)
        ∧ (pso_run_state e c s).fit_log[k + 1]? = some (k + 1, b) ∧ a ≤ b) := by
  refine ⟨fun t => update_n_best_g_mono c t, fun k hk => ?_⟩
  refine ⟨(pso_run_after e c (k + 1) s).g_best_fit, (pso_run_after e c (k + 2) s).g_best_fit,
    ?_, ?_, pso_run_after_g_mono e c (k + 1) s⟩
  · unfold pso_run_state
    rw [pso_run_after_log]
    simp [List.getElem?_map, List.getElem?_range (by omega : k < PSO_ITERATIONS c)]
  · unfold pso_run_state
    rw [pso_run_after_log]
    simp [List.getElem?_map, List.getElem?_range hk]

theorem C2_global_best_monotone_witness :
    (0 : Nat) + 1 < PSO_ITERATIONS headerNoisy
    ∧ ∃ a b, (pso_run_state env0 headerNoisy zeroSwarm).fit_log[0]? = some (0, a)
        ∧ (pso_run_state env0 headerNoisy zeroSwarm).fit_log[0 + 1]? = some (0 + 1, b) ∧ a ≤ b :=
  ⟨by decide, (C2_global_best_monotone env0 headerNoisy zeroSwarm).2 0 (by decide)⟩

/-! ## Monotonicity of the personal bests -/

theorem update_p_best_fit_mono (c : Config) (s : Swarm) (i : Nat) :
    s.p_best_fit i ≤ (update_p_best c s).p_best_fit i := by
  rw [update_p_best_eq]
  dsimp only
  split
  · next h => exact le_of_lt h.2
  · exact le_refl _

theorem pso_iteration_p_best_fit_mono (e : Env) (c : Config) (hN : c.NOISY = false)
    (s : Swarm) (i : Nat) : s.p_best_fit i ≤ (pso_iteration e c s).p_best_fit i := by
  unfold pso_iteration
  simp only [hN, Bool.false_eq_true, if_false]
  have h1 : (update_n_best c (update_p_best c (evaluate_particles e c
      (update_particle_positions e c s)))).p_best_fit
      = (update_p_best c (evaluate_particles e c (update_particle_positions e c s))).p_best_fit := by
    rw [update_n_best_eq]
  have h2 : (evaluate_particles e c (update_particle_positions e c s)).p_best_fit
      = s.p_best_fit := by
    rw [evaluate_particles_eq, update_particle_positions_eq]
  rw [h1]
  calc s.p_best_fit i
      = (evaluate_particles e c (update_particle_positions e c s)).p_best_fit i := by rw [h2]
    _ ≤ _ := update_p_best_fit_mono c _ i

/-- C3. Personal-best fitness is monotone in non-noisy mode: for every
particle `i`, fitness function and sequence of `rand()` results,
`p_best_fit[i]` at the end of iteration `k + 1` of `pso_run` is at least its
value at the end of iteration `k`, and at the end of every iteration it is at
least its value after `particles_init`. -/
theorem C3_personal_best_monotone (e : Env) (c : Config) (hN : c.NOISY = false) (s : Swarm)
    (i : Nat) :
    (∀ k, (pso_run_after e c k s).p_best_fit i ≤ (pso_run_after e c (k + 1) s).p_best_fit i)
    ∧ (∀ k, (particles_init e c { s with fit_log := [] }).p_best_fit i
        ≤ (pso_run_after e c k s).p_best_fit i) := by
  have step : ∀ k, (pso_run_after e c k s).p_best_fit i
      ≤ (pso_run_after e c (k + 1) s).p_best_fit i := by
    intro k
    rw [pso_run_after_succ]
    exact pso_iteration_p_best_fit_mono e c hN _ i
  refine ⟨step, fun k => ?_⟩
  induction k with
  | zero => exact le_refl _
  | succ k ih => exact le_trans ih (step k)

theorem C3_personal_best_monotone_witness :
    header.NOISY = false
    ∧ (pso_run_after env0 header 0 zeroSwarm).p_best_fit 0
        ≤ (pso_run_after env0 header (0 + 1) zeroSwarm).p_best_fit 0 :=
  ⟨rfl, (C3_personal_best_monotone env0 header rfl zeroSwarm 0).1 0⟩

/-! ## The neighborhood scan -/

theorem scan_fit_succ (pf : Nat → ℚ) (nb : Nat → Int) (f0 : ℚ) (m : Nat) :
    scan_fit pf nb f0 (m + 1) = max (scan_fit pf nb f0 m) (pf (nb m).toNat) := by
  show (if pf (nb m).toNat > scan_fit pf nb f0 m then pf (nb m).toNat else scan_fit pf nb f0 m) = _
  split
  · next h => exact (max_eq_right (le_of_lt h)).symm
  · next h => exact (max_eq_left (not_lt.mp h)).symm

theorem scan_fit_ge_start (pf : Nat → ℚ) (nb : Nat → Int) (f0 : ℚ) (m : Nat) :
    f0 ≤ scan_fit pf nb f0 m := by
  induction m with
  | zero => exact le_refl _
  | succ m ih => rw [scan_fit_succ]; exact le_trans ih (le_max_left _ _)

theorem scan_fit_ge (pf : Nat → ℚ) (nb : Nat → Int) (f0 : ℚ) (m j : Nat) (hj : j < m) :
    pf (nb j).toNat ≤ scan_fit pf nb f0 m := by
  induction m with
  | zero => omega
  | succ m ih =>
    rw [scan_fit_succ]
    by_cases h : j = m
    · subst h; exact le_max_right _ _
    · exact le_trans (ih (by omega)) (le_max_left _ _)

theorem scan_fit_attained (pf : Nat → ℚ) (nb : Nat → Int) (f0 : ℚ) (m : Nat) :
    scan_fit pf nb f0 m = f0 ∨ ∃ j, j < m ∧ scan_fit pf nb f0 m = pf (nb j).toNat := by
  induction m with
  | zero => exact Or.inl rfl
  | succ m ih =>
    show (if pf (nb m).toNat > scan_fit pf nb f0 m then pf (nb m).toNat else scan_fit pf nb f0 m)
        = f0 ∨ ∃ j, j < m + 1 ∧
      (if pf (nb m).toNat > scan_fit pf nb f0 m then pf (nb m).toNat else scan_fit pf nb f0 m)
        = pf (nb j).toNat
    split
    · exact Or.inr ⟨m, Nat.lt_succ_self m, rfl⟩
    · rcases ih with h | ⟨j, hj, h⟩
      · exact Or.inl h
      · exact Or.inr ⟨j, Nat.lt_succ_of_lt hj, h⟩

theorem scan_unchanged (c : Config) (pf : Nat → ℚ) (pb : Nat → Nat → ℚ) (nb : Nat → Int)
    (f0 : ℚ) (b0 : Nat → ℚ) (m : Nat) (h : ∀ j, j < m → pf (nb j).toNat ≤ f0) :
    scan_fit pf nb f0 m = f0 ∧ scan_pos c pf pb nb f0 b0 m = b0 := by
  induction m with
  | zero => exact ⟨rfl, rfl⟩
  | succ m ih =>
    obtain ⟨h1, h2⟩ := ih (fun j hj => h j (Nat.lt_succ_of_lt hj))
    have h3 : ¬ pf (nb m).toNat > scan_fit pf nb f0 m := by
      rw [h1]; exact not_lt.mpr (h m (Nat.lt_succ_self m))
    constructor
    · show (if pf (nb m).toNat > scan_fit pf nb f0 m then _ else _) = _
      rw [if_neg h3, h1]
    · show (if pf (nb m).toNat > scan_fit pf nb f0 m then _ else _) = _
      rw [if_neg h3, h2]

theorem scan_first (c : Config) (pf : Nat → ℚ) (pb : Nat → Nat → ℚ) (nb : Nat → Int)
    (f0 : ℚ) (b0 : Nat → ℚ) (m : Nat) (h : ∃ j, j < m ∧ pf (nb j).toNat > f0) :
    ∃ js, js < m ∧ pf (nb js).toNat = scan_fit pf nb f0 m
      ∧ (∀ j, j < js → pf (nb j).toNat < scan_fit pf nb f0 m)
      ∧ ∀ l, l < c.DATASIZE → scan_pos c pf pb nb f0 b0 m l = pb (nb js).toNat l := by
  induction m with
  | zero => obtain ⟨j, hj, _⟩ := h; omega
  | succ m ih =>
    by_cases hc : pf (nb m).toNat > scan_fit pf nb f0 m
    · refine ⟨m, Nat.lt_succ_self m, ?_, ?_, ?_⟩
      · show _ = (if pf (nb m).toNat > scan_fit pf nb f0 m then _ else _)
        rw [if_pos hc]
      · intro j hj
        have h1 : scan_fit pf nb f0 (m + 1) = pf (nb m).toNat := by
          show (if pf (nb m).toNat > scan_fit pf nb f0 m then _ else _) = _
          rw [if_pos hc]
        rw [h1]
        exact lt_of_le_of_lt (scan_fit_ge pf nb f0 m j hj) hc
      · intro l hl
        show (if pf (nb m).toNat > scan_fit pf nb f0 m
          then copy_particle c (pb (nb m).toNat) (scan_pos c pf pb nb f0 b0 m)
          else scan_pos c pf pb nb f0 b0 m) l = _
        rw [if_pos hc, copy_particle_apply, if_pos hl]
    · have hf : scan_fit pf nb f0 (m + 1) = scan_fit pf nb f0 m := by
        show (if pf (nb m).toNat > scan_fit pf nb f0 m then _ else _) = _
        rw [if_neg hc]
      have hp : scan_pos c pf pb nb f0 b0 (m + 1) = scan_pos c pf pb nb f0 b0 m := by
        show (if pf (nb m).toNat > scan_fit pf nb f0 m then _ else _) = _
        rw [if_neg hc]
      have h2 : ∃ j, j < m ∧ pf (nb j).toNat > f0 := by
        obtain ⟨j, hj, hgt⟩ := h
        by_cases hjm : j = m
        · subst hjm
          have h3 : f0 < scan_fit pf nb f0 j := lt_of_lt_of_le hgt (not_lt.mp hc)
          rcases scan_fit_attained pf nb f0 j with h4 | ⟨j2, hj2, h4⟩
          · rw [h4] at h3; exact absurd h3 (lt_irrefl _)
          · exact ⟨j2, hj2, by rw [← h4]; exact h3⟩
        · exact ⟨j, by omega, hgt⟩
      obtain ⟨js, hjs, h3, h4, h5⟩ := ih h2
      exact ⟨js, Nat.lt_succ_of_lt hjs, by rw [hf]; exact h3, by rw [hf]; exact h4,
        by rw [hp]; exact h5⟩

theorem update_n_best_n_best_fit (c : Config) (s : Swarm) (i : Nat) (hi : i < c.SWARMSIZE) :
    (update_n_best c s).n_best_fit i = nfit c s i := by
  rw [update_n_best_eq]
  simp [hi]

theorem update_n_best_n_best (c : Config) (s : Swarm) (i : Nat) (hi : i < c.SWARMSIZE) :
    (update_n_best c s).n_best i = npos c s i := by
  rw [update_n_best_eq]
  simp [hi]

/-- C7. Neighborhood-best update: in a state whose neighbor indices lie in
`[0, N)`, for particle `i < N`, after `update_n_best` the value
`n_best_fit[i]` is the greatest element of the set made of its old value and
of the personal-best fitnesses of the `K` neighbors of `i`; if no neighbor's
personal-best fitness strictly exceeds the old `n_best_fit[i]`, `n_best[i]` is
unchanged; otherwise `n_best[i]` holds the personal-best position of
`neighbor[i][js]`, where `js` is the smallest slot whose personal-best fitness
equals the new `n_best_fit[i]`. -/
theorem C7_neighborhood_best (c : Config) (s : Swarm)
    (_hnb : ∀ i j, i < c.SWARMSIZE → j < c.NEIGH_SIZE →
      0 ≤ s.neighbor i j ∧ s.neighbor i j < (c.SWARMSIZE : Int))
    (i : Nat) (hi : i < c.SWARMSIZE) :
    IsGreatest {q | q = s.n_best_fit i
        ∨ ∃ j, j < c.NEIGH_SIZE ∧ q = s.p_best_fit (s.neighbor i j).toNat}
      ((update_n_best c s).n_best_fit i)
    ∧ ((∀ j, j < c.NEIGH_SIZE → s.p_best_fit (s.neighbor i j).toNat ≤ s.n_best_fit i) →
        (update_n_best c s).n_best i = s.n_best i)
    ∧ ((∃ j, j < c.NEIGH_SIZE ∧ s.p_best_fit (s.neighbor i j).toNat > s.n_best_fit i) →
        ∃ js, js < c.NEIGH_SIZE
          ∧ s.p_best_fit (s.neighbor i js).toNat = (update_n_best c s).n_best_fit i
          ∧ (∀ j, j < js →
              s.p_best_fit (s.neighbor i j).toNat ≠ (update_n_best c s).n_best_fit i)
          ∧ ∀ l, l < c.DATASIZE →
              (update_n_best c s).n_best i l = s.p_best (s.neighbor i js).toNat l) := by
  rw [update_n_best_n_best_fit c s i hi, update_n_best_n_best c s i hi]
  unfold nfit npos
  refine ⟨⟨?_, ?_⟩, ?_, ?_⟩
  · rcases scan_fit_attained s.p_best_fit (s.neighbor i) (s.n_best_fit i) c.NEIGH_SIZE
      with h | ⟨j, hj, h⟩
    · exact Or.inl h
    · exact Or.inr ⟨j, hj, h⟩
  · rintro q (hq | ⟨j, hj, hq⟩)
    · rw [hq]; exact scan_fit_ge_start _ _ _ _
    · rw [hq]; exact scan_fit_ge _ _ _ _ j hj
  · intro h
    exact (scan_unchanged c _ _ _ _ _ _ h).2
  · intro h
    obtain ⟨js, hjs, h1, h2, h3⟩ :=
      scan_first c s.p_best_fit s.p_best (s.neighbor i) (s.n_best_fit i) (s.n_best i)
        c.NEIGH_SIZE h
    exact ⟨js, hjs, h1, fun j hj => ne_of_lt (h2 j hj), h3⟩

theorem C7_neighborhood_best_witness :
    (∀ i j, i < header.SWARMSIZE → j < header.NEIGH_SIZE →
      0 ≤ zeroSwarm.neighbor i j ∧ zeroSwarm.neighbor i j < (header.SWARMSIZE : Int))
    ∧ (0 : Nat) < header.SWARMSIZE
    ∧ IsGreatest {q | q = zeroSwarm.n_best_fit 0
        ∨ ∃ j, j < header.NEIGH_SIZE ∧ q = zeroSwarm.p_best_fit (zeroSwarm.neighbor 0 j).toNat}
      ((update_n_best header zeroSwarm).n_best_fit 0) :=
  ⟨fun _ _ _ _ => ⟨le_refl _, by norm_num [zeroSwarm, header]⟩, by decide,
    (C7_neighborhood_best header zeroSwarm (fun _ _ _ _ => ⟨le_refl _, by norm_num [zeroSwarm, header]⟩) 0
      (by decide)).1⟩

/-! ## The global best is the best personal best -/

theorem ring_index_range (c : Config) (hN : 1 ≤ c.SWARMSIZE) (i j : Nat) :
    0 ≤ ring_index c i j ∧ ring_index c i j < (c.SWARMSIZE : Int) := by
  have hN0 : (0 : Int) < (c.SWARMSIZE : Int) := by exact_mod_cast hN
  rw [ring_index_eq_emod c hN]
  exact ⟨Int.emod_nonneg _ (ne_of_gt hN0), Int.emod_lt_of_pos _ hN0⟩

theorem ring_index_toNat_lt (c : Config) (hN : 1 ≤ c.SWARMSIZE) (i j : Nat) :
    (ring_index c i j).toNat < c.SWARMSIZE := by
  have h := ring_index_range c hN i j
  omega

theorem ring_index_self (c : Config) (i : Nat) (hi : i < c.SWARMSIZE) :
    ring_index c i (c.NEIGH_SIZE / 2) = (i : Int) := by
  rw [ring_index_eq_emod c (by omega)]
  have h : (i : Int) - ((c.NEIGH_SIZE / 2 : Nat) : Int) + ((c.NEIGH_SIZE / 2 : Nat) : Int)
      = (i : Int) := by ring
  rw [h]
  exact Int.emod_eq_of_lt (Int.ofNat_nonneg _) (by exact_mod_cast hi)

theorem gfit_ge (c : Config) (s : Swarm) (n i : Nat) (hi : i < n) :
    nfit c s i ≤ gfit c s n := by
  induction n with
  | zero => omega
  | succ n ih =>
    have hmono : gfit c s n ≤ gfit c s (n + 1) := by
      show _ ≤ (if nfit c s n > gfit c s n then nfit c s n else gfit c s n)
      split
      · next h => exact le_of_lt h
      · exact le_refl _
    by_cases h : i = n
    · subst h
      show _ ≤ (if nfit c s i > gfit c s i then nfit c s i else gfit c s i)
      split
      · exact le_refl _
      · next h2 => exact not_lt.mp h2
    · exact le_trans (ih (by omega)) hmono

theorem gfit_attained (c : Config) (s : Swarm) (n : Nat) :
    gfit c s n = s.g_best_fit ∨ ∃ i, i < n ∧ gfit c s n = nfit c s i := by
  induction n with
  | zero => exact Or.inl rfl
  | succ n ih =>
    show (if nfit c s n > gfit c s n then nfit c s n else gfit c s n) = s.g_best_fit
      ∨ ∃ i, i < n + 1 ∧
        (if nfit c s n > gfit c s n then nfit c s n else gfit c s n) = nfit c s i
    split
    · exact Or.inr ⟨n, Nat.lt_succ_self n, rfl⟩
    · rcases ih with h | ⟨i, hi, h⟩
      · exact Or.inl h
      · exact Or.inr ⟨i, Nat.lt_succ_of_lt hi, h⟩

/-- With the ring of `find_neighborhood` and `NEIGH_SIZE ≥ 1`, every particle
is among its own neighbors, so its neighborhood best is at least its personal
best. -/
theorem nfit_ge_self (c : Config) (s : Swarm) (hK : 1 ≤ c.NEIGH_SIZE)
    (hring : ring_neighbors c s) (i : Nat) (hi : i < c.SWARMSIZE) :
    s.p_best_fit i ≤ nfit c s i := by
  have hslot : c.NEIGH_SIZE / 2 < c.NEIGH_SIZE := by omega
  have h := scan_fit_ge s.p_best_fit (s.neighbor i) (s.n_best_fit i) c.NEIGH_SIZE
    (c.NEIGH_SIZE / 2) hslot
  rw [hring i _ hi hslot, ring_index_self c i hi] at h
  simpa using h

/-- One `update_n_best` establishes `best_inv`, provided no neighborhood best
beats the global best before it and some personal best is at least the old
global best. -/
theorem update_n_best_best_inv (c : Config) (s : Swarm) (hN : 1 ≤ c.SWARMSIZE)
    (hK : 1 ≤ c.NEIGH_SIZE) (hring : ring_neighbors c s)
    (hA : ∀ i, i < c.SWARMSIZE → s.n_best_fit i ≤ s.g_best_fit)
    (hB : ∃ i, i < c.SWARMSIZE ∧ s.g_best_fit ≤ s.p_best_fit i) :
    best_inv c (update_n_best c s) := by
  have hge : ∀ i, i < c.SWARMSIZE → s.p_best_fit i ≤ gfit c s c.SWARMSIZE := fun i hi =>
    le_trans (nfit_ge_self c s hK hring i hi) (gfit_ge c s _ i hi)
  have hold : gfit c s c.SWARMSIZE = s.g_best_fit →
      ∃ i, i < c.SWARMSIZE ∧ gfit c s c.SWARMSIZE = s.p_best_fit i := by
    intro h
    obtain ⟨i, hi, hle⟩ := hB
    exact ⟨i, hi, le_antisymm (by rw [h]; exact hle) (hge i hi)⟩
  have hatt : ∃ i, i < c.SWARMSIZE ∧ gfit c s c.SWARMSIZE = s.p_best_fit i := by
    rcases gfit_attained c s c.SWARMSIZE with h | ⟨i, hi, h⟩
    · exact hold h
    · rcases scan_fit_attained s.p_best_fit (s.neighbor i) (s.n_best_fit i) c.NEIGH_SIZE
        with h2 | ⟨j, hj, h2⟩
      · apply hold
        have h3 : nfit c s i = s.n_best_fit i := h2
        exact le_antisymm (by rw [h, h3]; exact hA i hi) (gfit_ge_start c s _)
      · refine ⟨(s.neighbor i j).toNat, ?_, ?_⟩
        · rw [hring i j hi hj]; exact ring_index_toNat_lt c hN i j
        · rw [h]; exact h2
  rw [update_n_best_eq]
  refine ⟨hring, ?_, ?_, ?_⟩
  · intro i hi
    simp only [hi, if_true]
    exact gfit_ge c s _ i hi
  · obtain ⟨i, hi, h⟩ := hatt
    exact ⟨i, hi, h⟩
  · rintro q ⟨i, hi, rfl⟩
    exact hge i hi

theorem particles_init_split (e : Env) (c : Config) (s : Swarm) :
    particles_init e c s = update_n_best c (particles_init_seeded e c s) := rfl

theorem seeded_ring (e : Env) (c : Config) (s : Swarm) :
    ring_neighbors c (particles_init_seeded e c s) := by
  intro i j hi hj
  unfold particles_init_seeded
  exact find_neighborhood_neighbor c _ i j hi hj

theorem seeded_x (e : Env) (c : Config) (s : Swarm) :
    (particles_init_seeded e c s).x = (particles_init e c s).x := by
  rw [particles_init_split, update_n_best_eq]

theorem seeded_x_fit (e : Env) (c : Config) (s : Swarm) (i : Nat) (hi : i < c.SWARMSIZE) :
    (particles_init_seeded e c s).x_fit i
      = e.fitness (s.fit_calls + i) (coeffs c ((particles_init e c s).x i)) := by
  rw [← seeded_x]
  unfold particles_init_seeded
  rw [find_neighborhood_eq, update_p_best_eq, evaluate_particles_eq, particles_init_reset_eq]
  simp [hi]

theorem seeded_n_best_fit (e : Env) (c : Config) (s : Swarm) (i : Nat) (hi : i < c.SWARMSIZE) :
    (particles_init_seeded e c s).n_best_fit i = -1 := by
  unfold particles_init_seeded
  rw [find_neighborhood_eq, update_p_best_eq, evaluate_particles_eq, particles_init_reset_eq]
  simp [hi]

theorem seeded_g_best_fit (e : Env) (c : Config) (s : Swarm) :
    (particles_init_seeded e c s).g_best_fit = -1 := by
  unfold particles_init_seeded
  rw [find_neighborhood_eq, update_p_best_eq, evaluate_particles_eq, particles_init_reset_eq]

theorem seeded_p_best_fit (e : Env) (c : Config) (s : Swarm) (i : Nat) (hi : i < c.SWARMSIZE) :
    (particles_init_seeded e c s).p_best_fit i
      = if (particles_init_seeded e c s).x_fit i > -1
        then (particles_init_seeded e c s).x_fit i else -1 := by
  unfold particles_init_seeded
  rw [find_neighborhood_eq, update_p_best_eq, evaluate_particles_eq, particles_init_reset_eq]
  simp [hi]

theorem seeded_p_best_fit_ge (e : Env) (c : Config) (s : Swarm) (i : Nat)
    (hi : i < c.SWARMSIZE) : -1 ≤ (particles_init_seeded e c s).p_best_fit i := by
  rw [seeded_p_best_fit e c s i hi]
  split
  · next h => exact le_of_lt h
  · exact le_refl _

theorem particles_init_best_inv (e : Env) (c : Config) (hN : 1 ≤ c.SWARMSIZE)
    (hK : 1 ≤ c.NEIGH_SIZE) (s : Swarm) : best_inv c (particles_init e c s) := by
  rw [particles_init_split]
  apply update_n_best_best_inv c _ hN hK (seeded_ring e c s)
  · intro i hi
    rw [seeded_n_best_fit e c s i hi, seeded_g_best_fit]
  · refine ⟨0, by omega, ?_⟩
    rw [seeded_g_best_fit]
    exact seeded_p_best_fit_ge e c s 0 (by omega)

theorem pso_iteration_split (e : Env) (c : Config) (hNoisy : c.NOISY = false) (s : Swarm) :
    pso_iteration e c s = update_n_best c (pso_iteration_scored e c s) := by
  unfold pso_iteration pso_iteration_scored
  simp [hNoisy]

theorem pso_iteration_best_inv (e : Env) (c : Config) (hNoisy : c.NOISY = false)
    (hN : 1 ≤ c.SWARMSIZE) (hK : 1 ≤ c.NEIGH_SIZE) (s : Swarm) (h : best_inv c s) :
    best_inv c (pso_iteration e c s) := by
  obtain ⟨hring, hA, ⟨i0, hi0, hg⟩, _⟩ := h
  have hnb : (pso_iteration_scored e c s).neighbor = s.neighbor := by
    unfold pso_iteration_scored
    rw [update_p_best_eq, evaluate_particles_eq, update_particle_positions_eq]
  have hnf : (pso_iteration_scored e c s).n_best_fit = s.n_best_fit := by
    unfold pso_iteration_scored
    rw [update_p_best_eq, evaluate_particles_eq, update_particle_positions_eq]
  have hgf : (pso_iteration_scored e c s).g_best_fit = s.g_best_fit := by
    unfold pso_iteration_scored
    rw [update_p_best_eq, evaluate_particles_eq, update_particle_positions_eq]
  have hpf : ∀ i, s.p_best_fit i ≤ (pso_iteration_scored e c s).p_best_fit i := by
    intro i
    have h1 := update_p_best_fit_mono c
      (evaluate_particles e c (update_particle_positions e c s)) i
    have h2 : (evaluate_particles e c (update_particle_positions e c s)).p_best_fit
        = s.p_best_fit := by
      rw [evaluate_particles_eq, update_particle_positions_eq]
    rw [h2] at h1
    exact h1
  rw [pso_iteration_split e c hNoisy]
  apply update_n_best_best_inv c _ hN hK
  · intro i j hi hj
    rw [hnb]; exact hring i j hi hj
  · intro i hi
    rw [hnf, hgf]; exact hA i hi
  · exact ⟨i0, hi0, by rw [hgf, hg]; exact hpf i0⟩

theorem pso_run_after_best_inv (e : Env) (c : Config) (hNoisy : c.NOISY = false)
    (hN : 1 ≤ c.SWARMSIZE) (hK : 1 ≤ c.NEIGH_SIZE) (s : Swarm) (k : Nat) :
    best_inv c (pso_run_after e c k s) := by
  induction k with
  | zero => exact particles_init_best_inv e c hN hK _
  | succ k ih =>
    rw [pso_run_after_succ]
    exact pso_iteration_best_inv e c hNoisy hN hK _ ih

/-- C8. Global best is the best of any particle: in non-noisy mode with
`SWARMSIZE ≥ 1` and `NEIGH_SIZE ≥ 1`, for every fitness function and every
sequence of `rand()` results, after `particles_init` and after every iteration
of `pso_run` the value `g_best_fit` is the greatest of the personal-best
fitnesses `p_best_fit[i]`, `i < SWARMSIZE`. -/
theorem C8_global_best_is_max (e : Env) (c : Config) (hNoisy : c.NOISY = false)
    (hN : 1 ≤ c.SWARMSIZE) (hK : 1 ≤ c.NEIGH_SIZE) (s : Swarm) :
    IsGreatest {q | ∃ i, i < c.SWARMSIZE ∧ q = (particles_init e c s).p_best_fit i}
      (particles_init e c s).g_best_fit
    ∧ ∀ k, IsGreatest {q | ∃ i, i < c.SWARMSIZE ∧ q = (pso_run_after e c k s).p_best_fit i}
      (pso_run_after e c k s).g_best_fit :=
  ⟨(particles_init_best_inv e c hN hK s).2.2,
    fun k => (pso_run_after_best_inv e c hNoisy hN hK s k).2.2⟩

theorem C8_global_best_is_max_witness :
    header.NOISY = false ∧ 1 ≤ header.SWARMSIZE ∧ 1 ≤ header.NEIGH_SIZE
    ∧ IsGreatest {q | ∃ i, i < header.SWARMSIZE
        ∧ q = (particles_init env0 header zeroSwarm).p_best_fit i}
      (particles_init env0 header zeroSwarm).g_best_fit :=
  ⟨rfl, by decide, by decide,
    (C8_global_best_is_max env0 header rfl (by decide) (by decide) zeroSwarm).1⟩

/-! ## Seeding of the bests by `particles_init` -/

theorem particles_init_x_fit (e : Env) (c : Config) (s : Swarm) :
    (particles_init e c s).x_fit = (particles_init_seeded e c s).x_fit := by
  rw [particles_init_split, update_n_best_eq]

theorem particles_init_p_best_fit (e : Env) (c : Config) (s : Swarm) :
    (particles_init e c s).p_best_fit = (particles_init_seeded e c s).p_best_fit := by
  rw [particles_init_split, update_n_best_eq]

theorem particles_init_neighbor (e : Env) (c : Config) (s : Swarm) :
    (particles_init e c s).neighbor = (particles_init_seeded e c s).neighbor := by
  rw [particles_init_split, update_n_best_eq]

theorem particles_init_p_best (e : Env) (c : Config) (s : Swarm) (i : Nat)
    (hi : i < c.SWARMSIZE) (h : (particles_init_seeded e c s).x_fit i > -1) :
    (∀ l, l < c.DATASIZE → (particles_init e c s).p_best i l = (particles_init e c s).x i l)
    ∧ (particles_init e c s).p_best_times i = 1 := by
  have hx : (particles_init_seeded e c s).x_fit i
      = (evaluate_particles e c (particles_init_reset e c s)).x_fit i := by
    unfold particles_init_seeded
    rw [find_neighborhood_eq, update_p_best_eq]
  have hp : (evaluate_particles e c (particles_init_reset e c s)).p_best_fit i = -1 := by
    rw [evaluate_particles_eq, particles_init_reset_eq]
    simp [hi]
  have hgt : (evaluate_particles e c (particles_init_reset e c s)).x_fit i
      > (evaluate_particles e c (particles_init_reset e c s)).p_best_fit i := by
    rw [hp, ← hx]; exact h
  have h6 := (update_p_best_overwrite c (evaluate_particles e c (particles_init_reset e c s))
    i hi hgt)
  have hxx : (particles_init e c s).x
      = (evaluate_particles e c (particles_init_reset e c s)).x := by
    rw [particles_init_split, update_n_best_eq]
    unfold particles_init_seeded
    rw [find_neighborhood_eq, update_p_best_eq]
  have hpb : (particles_init e c s).p_best
      = (update_p_best c (evaluate_particles e c (particles_init_reset e c s))).p_best := by
    rw [particles_init_split, update_n_best_eq]
    unfold particles_init_seeded
    rw [find_neighborhood_eq]
  have hpt : (particles_init e c s).p_best_times
      = (update_p_best c (evaluate_particles e c (particles_init_reset e c s))).p_best_times := by
    rw [particles_init_split, update_n_best_eq]
    unfold particles_init_seeded
    rw [find_neighborhood_eq]
  rw [hxx, hpb, hpt]
  exact ⟨h6.1, h6.2⟩

theorem init_p_best_fit (e : Env) (c : Config) (hpos : ∀ k p, -1 < e.fitness k p) (s : Swarm)
    (i : Nat) (hi : i < c.SWARMSIZE) :
    (particles_init e c s).p_best_fit i = init_fitness e c s i := by
  rw [particles_init_p_best_fit, seeded_p_best_fit e c s i hi, seeded_x_fit e c s i hi]
  unfold init_fitness
  rw [if_pos (hpos _ _)]

/-- C10. Initialization seeds every best tier: if `fitness` returns a value
`> -1` on every call and `NEIGH_SIZE ≥ 1`, then after `particles_init`, for
every particle `i`, `x_fit[i]` and `p_best_fit[i]` are the fitness obtained
for `x[i]`, `p_best[i]` holds the coefficients of `x[i]`, `p_best_times[i]`
is 1, `n_best_fit[i]` is the greatest fitness obtained for the neighbors of
`i`, `g_best_fit` is the greatest fitness obtained for any particle, and none
of these fitness fields holds the sentinel `-1`. -/
theorem C10_initialization_seeds (e : Env) (c : Config) (hpos : ∀ k p, -1 < e.fitness k p)
    (hK : 1 ≤ c.NEIGH_SIZE) (s : Swarm) (i : Nat) (hi : i < c.SWARMSIZE) :
    (particles_init e c s).x_fit i = init_fitness e c s i
    ∧ (particles_init e c s).p_best_fit i = init_fitness e c s i
    ∧ (∀ l, l < c.DATASIZE → (particles_init e c s).p_best i l = (particles_init e c s).x i l)
    ∧ (particles_init e c s).p_best_times i = 1
    ∧ IsGreatest {q | ∃ j, j < c.NEIGH_SIZE
          ∧ q = init_fitness e c s ((particles_init e c s).neighbor i j).toNat}
        ((particles_init e c s).n_best_fit i)
    ∧ IsGreatest {q | ∃ k, k < c.SWARMSIZE ∧ q = init_fitness e c s k}
        (particles_init e c s).g_best_fit
    ∧ (particles_init e c s).x_fit i ≠ -1
    ∧ (particles_init e c s).p_best_fit i ≠ -1
    ∧ (particles_init e c s).n_best_fit i ≠ -1
    ∧ (particles_init e c s).g_best_fit ≠ -1 := by
  have hN : 1 ≤ c.SWARMSIZE := by omega
  have hF : ∀ k, -1 < init_fitness e c s k := fun k => hpos _ _
  have hxf : (particles_init e c s).x_fit i = init_fitness e c s i := by
    rw [particles_init_x_fit, seeded_x_fit e c s i hi]; rfl
  have hpf : ∀ k, k < c.SWARMSIZE → (particles_init e c s).p_best_fit k = init_fitness e c s k :=
    fun k hk => init_p_best_fit e c hpos s k hk
  have hpb := particles_init_p_best e c s i hi
    (by rw [seeded_x_fit e c s i hi]; exact hpos _ _)
  have hnbr : ∀ j, j < c.NEIGH_SIZE →
      (particles_init_seeded e c s).p_best_fit ((particles_init_seeded e c s).neighbor i j).toNat
        = init_fitness e c s ((particles_init e c s).neighbor i j).toNat := by
    intro j hj
    rw [← particles_init_p_best_fit, particles_init_neighbor]
    apply hpf
    rw [seeded_ring e c s i j hi hj]
    exact ring_index_toNat_lt c hN i j
  have hnf : (particles_init e c s).n_best_fit i = nfit c (particles_init_seeded e c s) i := by
    rw [particles_init_split]; exact update_n_best_n_best_fit c _ i hi
  have hge : ∀ j, j < c.NEIGH_SIZE →
      init_fitness e c s ((particles_init e c s).neighbor i j).toNat
        ≤ (particles_init e c s).n_best_fit i := by
    intro j hj
    rw [hnf, ← hnbr j hj]
    exact scan_fit_ge _ _ _ _ j hj
  have hn1 : -1 < (particles_init e c s).n_best_fit i :=
    lt_of_lt_of_le (hF _) (hge 0 (by omega))
  have hinv := (particles_init_best_inv e c hN hK s).2.2
  have hg1 : -1 < (particles_init e c s).g_best_fit :=
    lt_of_lt_of_le (hF i) (by rw [← hpf i hi]; exact hinv.2 ⟨i, hi, rfl⟩)
  refine ⟨hxf, hpf i hi, hpb.1, hpb.2, ⟨?_, ?_⟩, ⟨?_, ?_⟩, ?_, ?_, ne_of_gt hn1, ne_of_gt hg1⟩
  · rcases scan_fit_attained (particles_init_seeded e c s).p_best_fit
        ((particles_init_seeded e c s).neighbor i) ((particles_init_seeded e c s).n_best_fit i)
        c.NEIGH_SIZE with h | ⟨j, hj, h⟩
    · have h2 : nfit c (particles_init_seeded e c s) i = -1 := by
        rw [← seeded_n_best_fit e c s i hi]; exact h
      rw [hnf, h2] at hn1
      exact absurd hn1 (lt_irrefl _)
    · refine ⟨j, hj, ?_⟩
      rw [hnf, ← hnbr j hj]
      exact h
  · rintro q ⟨j, hj, rfl⟩
    exact hge j hj
  · obtain ⟨k, hk, h⟩ := hinv.1
    exact ⟨k, hk, by rw [h, hpf k hk]⟩
  · rintro q ⟨k, hk, rfl⟩
    rw [← hpf k hk]
    exact hinv.2 ⟨k, hk, rfl⟩
  · rw [hxf]; exact ne_of_gt (hF i)
  · rw [hpf i hi]; exact ne_of_gt (hF i)

theorem C10_initialization_seeds_witness :
    (∀ k p, -1 < env1.fitness k p) ∧ 1 ≤ header.NEIGH_SIZE ∧ (0 : Nat) < header.SWARMSIZE
    ∧ (particles_init env1 header zeroSwarm).p_best_fit 0 = init_fitness env1 header zeroSwarm 0
    ∧ (particles_init env1 header zeroSwarm).g_best_fit ≠ -1 :=
  ⟨fun _ _ => by norm_num [env1], by decide, by decide,
    (C10_initialization_seeds env1 header (fun _ _ => by norm_num [env1]) (by decide)
      zeroSwarm 0 (by decide)).2.1,
    (C10_initialization_seeds env1 header (fun _ _ => by norm_num [env1]) (by decide)
      zeroSwarm 0 (by decide)).2.2.2.2.2.2.2.2.2⟩

/-! ## Self membership and distinctness in the ring -/

/-- C19. Every particle is its own neighbor: for every `NEIGH_SIZE ≥ 1` and
every particle `i` of a swarm (so `SWARMSIZE ≥ 1`), `find_neighborhood` stores `i` in
slot `⌊NEIGH_SIZE/2⌋` of the neighbor list of `i`; consequently, in every
state with this neighbor table, after `update_n_best` the neighborhood-best
fitness of `i` is at least its personal-best fitness. -/
theorem C19_self_neighbor (c : Config) (hK : 1 ≤ c.NEIGH_SIZE) (i : Nat)
    (hi : i < c.SWARMSIZE) :
    c.NEIGH_SIZE / 2 < c.NEIGH_SIZE
    ∧ (∀ s, (find_neighborhood c s).neighbor i (c.NEIGH_SIZE / 2) = (i : Int))
    ∧ (∀ s, (update_n_best c (find_neighborhood c s)).p_best_fit i
        ≤ (update_n_best c (find_neighborhood c s)).n_best_fit i) := by
  have hslot : c.NEIGH_SIZE / 2 < c.NEIGH_SIZE := by omega
  refine ⟨hslot, fun s => ?_, fun s => ?_⟩
  · rw [find_neighborhood_neighbor c s i _ hi hslot]
    exact ring_index_self c i hi
  · have hring : ring_neighbors c (find_neighborhood c s) :=
      fun a b ha hb => find_neighborhood_neighbor c s a b ha hb
    have hp : (update_n_best c (find_neighborhood c s)).p_best_fit
        = (find_neighborhood c s).p_best_fit := by
      rw [update_n_best_eq]
    rw [update_n_best_n_best_fit c _ i hi, hp]
    exact nfit_ge_self c _ hK hring i hi

theorem C19_self_neighbor_witness :
    1 ≤ header.NEIGH_SIZE ∧ (7 : Nat) < header.SWARMSIZE
    ∧ (find_neighborhood header zeroSwarm).neighbor 7 (header.NEIGH_SIZE / 2) = ((7 : Nat) : Int) :=
  ⟨by decide, by decide,
    (C19_self_neighbor header (by decide) 7 (by decide)).2.1 zeroSwarm⟩

theorem ring_index_eq_iff (c : Config) (hN : 1 ≤ c.SWARMSIZE) (i j1 j2 : Nat) :
    ring_index c i j1 = ring_index c i j2
      ↔ (c.SWARMSIZE : Int) ∣ ((j1 : Int) - (j2 : Int)) := by
  rw [ring_index_eq_emod c hN, ring_index_eq_emod c hN, Int.emod_eq_emod_iff_emod_sub_eq_zero]
  have h : (i : Int) - ((c.NEIGH_SIZE / 2 : Nat) : Int) + (j1 : Int)
      - ((i : Int) - ((c.NEIGH_SIZE / 2 : Nat) : Int) + (j2 : Int)) = (j1 : Int) - (j2 : Int) := by
    ring
  rw [h]
  exact ⟨Int.dvd_of_emod_eq_zero, Int.emod_eq_zero_of_dvd⟩

/-- C14. Distinct neighbors under `K ≤ N`: for `N ≥ 1` particles and every
particle `i`, when `1 ≤ K ≤ N` the `K` indices that `find_neighborhood`
stores in `neighbor[i]` are pairwise distinct, and when `K > N` two different
slots of `neighbor[i]` hold the same index. -/
theorem C14_distinct_neighbors (c : Config) (s : Swarm) (hN : 1 ≤ c.SWARMSIZE) (i : Nat)
    (hi : i < c.SWARMSIZE) :
    (1 ≤ c.NEIGH_SIZE → c.NEIGH_SIZE ≤ c.SWARMSIZE →
      ∀ j1 j2, j1 < c.NEIGH_SIZE → j2 < c.NEIGH_SIZE → j1 ≠ j2 →
        (find_neighborhood c s).neighbor i j1 ≠ (find_neighborhood c s).neighbor i j2)
    ∧ (c.SWARMSIZE < c.NEIGH_SIZE →
      ∃ j1 j2, j1 < c.NEIGH_SIZE ∧ j2 < c.NEIGH_SIZE ∧ j1 ≠ j2
        ∧ (find_neighborhood c s).neighbor i j1 = (find_neighborhood c s).neighbor i j2) := by
  constructor
  · intro _ hKN j1 j2 h1 h2 hne heq
    rw [find_neighborhood_neighbor c s i j1 hi h1, find_neighborhood_neighbor c s i j2 hi h2,
      ring_index_eq_iff c hN] at heq
    have hz : (j1 : Int) - (j2 : Int) = 0 := by
      apply Int.eq_zero_of_abs_lt_dvd heq
      rw [abs_lt]
      constructor <;> omega
    omega
  · intro hlt
    refine ⟨c.SWARMSIZE, 0, hlt, by omega, by omega, ?_⟩
    rw [find_neighborhood_neighbor c s i _ hi hlt,
      find_neighborhood_neighbor c s i 0 hi (by omega), ring_index_eq_iff c hN]
    simp

theorem C14_distinct_neighbors_witness :
    1 ≤ header.SWARMSIZE ∧ (0 : Nat) < header.SWARMSIZE
    ∧ 1 ≤ header.NEIGH_SIZE ∧ header.NEIGH_SIZE ≤ header.SWARMSIZE
    ∧ (find_neighborhood header zeroSwarm).neighbor 0 0
        ≠ (find_neighborhood header zeroSwarm).neighbor 0 2 :=
  ⟨by decide, by decide, by decide, by decide,
    (C14_distinct_neighbors header zeroSwarm (by decide) 0 (by decide)).1 (by decide) (by decide)
      0 2 (by decide) (by decide) (by decide)⟩

/-! ## The fitness function of the harness -/

theorem fitness_eq (c : Config) (x : List ℚ) : fitness c x = 1 / fitness_perf c x := rfl

theorem fitness_sum_nonneg (c : Config) (x : List ℚ) : 0 ≤ fitness_sum c x := by
  unfold fitness_sum
  induction c.DATASIZE with
  | zero => exact le_refl _
  | succ n ih =>
    rw [forLoop_succ]
    have := sq_nonneg (x.getD n 0)
    linarith

theorem fitness_perf_pos (c : Config) (x : List ℚ) : 0 < fitness_perf c x := by
  unfold fitness_perf
  split
  · norm_num
  · next h => exact lt_of_le_of_ne (fitness_sum_nonneg c x) (Ne.symm h)

theorem fitness_pos (c : Config) (x : List ℚ) : 0 < fitness c x := by
  rw [fitness_eq]
  exact one_div_pos.mpr (fitness_perf_pos c x)

theorem fitness_sum_take (x : List ℚ) (n : Nat) (hn : n ≤ x.length) :
    forLoop n (fun i perf => perf + (x.getD i 0) ^ 2) (0 : ℚ)
      = ((x.take n).map (fun t => t ^ 2)).sum := by
  induction n with
  | zero => simp [forLoop]
  | succ n ih =>
    have hlt : n < x.length := by omega
    rw [forLoop_succ, ih (by omega), List.take_succ, List.map_append, List.sum_append]
    simp [List.getD, List.getElem?_eq_getElem hlt]

theorem fitness_sum_eq (c : Config) (x : List ℚ) (hx : x.length = c.DATASIZE) :
    fitness_sum c x = (x.map (fun t => t ^ 2)).sum := by
  unfold fitness_sum
  rw [fitness_sum_take x c.DATASIZE (by omega), ← hx, List.take_length]

/-- C20. The harness fitness respects the `-1` sentinel: for every position
`x`, `fitness(x)` of `pso_test.cpp` is strictly positive, hence greater than
`-1`, and the divisor of its division `1/perf` is not zero. -/
theorem C20_fitness_positive (c : Config) (x : List ℚ) :
    0 < fitness c x ∧ -1 < fitness c x
    ∧ fitness c x = 1 / fitness_perf c x ∧ fitness_perf c x ≠ 0 :=
  ⟨fitness_pos c x, lt_trans (by norm_num) (fitness_pos c x), rfl,
    ne_of_gt (fitness_perf_pos c x)⟩

theorem C15_counterexample :
    fitness header [1 / 1000, 0, 0, 0, 0, 0] = 1000000
    ∧ sphere_spec [1 / 1000, 0, 0, 0, 0, 0] = 100000
    ∧ fitness header [1 / 1000, 0, 0, 0, 0, 0] ≠ sphere_spec [1 / 1000, 0, 0, 0, 0, 0] := by
  have h1 : fitness header [1 / 1000, 0, 0, 0, 0, 0] = 1000000 := by
    norm_num [fitness, header, forLoop]
  have h2 : sphere_spec [1 / 1000, 0, 0, 0, 0, 0] = 100000 := by
    norm_num [sphere_spec]
  exact ⟨h1, h2, by rw [h1, h2]; norm_num⟩

/-- C15 (amended). Sphere fitness formula: for a position `x` of `DATASIZE`
numbers with sum of squares `S`, `fitness(x)` is `1/S` when `S ≠ 0` and
`1/0.00001 = 100000` when `S = 0`; it equals `1 / max(S, 0.00001)` whenever
`S = 0` or `S ≥ 0.00001`. -/
theorem C15_sphere_fitness (c : Config) (x : List ℚ) (hx : x.length = c.DATASIZE) :
    fitness c x = (if (x.map (fun t => t ^ 2)).sum = 0 then 100000
        else 1 / (x.map (fun t => t ^ 2)).sum)
    ∧ ((x.map (fun t => t ^ 2)).sum = 0 ∨ 1 / 100000 ≤ (x.map (fun t => t ^ 2)).sum →
        fitness c x = sphere_spec x) := by
  have hs := fitness_sum_eq c x hx
  have hf : fitness c x = (if (x.map (fun t => t ^ 2)).sum = 0 then 100000
      else 1 / (x.map (fun t => t ^ 2)).sum) := by
    rw [fitness_eq]
    unfold fitness_perf
    rw [hs]
    split
    · norm_num
    · rfl
  refine ⟨hf, fun h => ?_⟩
  rw [hf]
  unfold sphere_spec
  rcases h with h | h
  · rw [if_pos h, h, max_eq_right (by norm_num)]
    norm_num
  · have hne : (x.map (fun t => t ^ 2)).sum ≠ 0 := by
      intro h0
      rw [h0] at h
      norm_num at h
    rw [if_neg hne, max_eq_left h]

theorem C15_sphere_fitness_witness :
    [(1 : ℚ) / 1000, 0, 0, 0, 0, 0].length = header.DATASIZE
    ∧ fitness header [1 / 1000, 0, 0, 0, 0, 0]
      = (if ([(1 : ℚ) / 1000, 0, 0, 0, 0, 0].map (fun t => t ^ 2)).sum = 0 then 100000
        else 1 / ([(1 : ℚ) / 1000, 0, 0, 0, 0, 0].map (fun t => t ^ 2)).sum) :=
  ⟨rfl, (C15_sphere_fitness header [1 / 1000, 0, 0, 0, 0, 0] rfl).1⟩

/-! ## The global scan in index order -/

theorem gfit_eq_scan (c : Config) (s : Swarm) (n : Nat) :
    gfit c s n = scan_fit (nfit c s) (fun i => (i : Int)) s.g_best_fit n := by
  induction n with
  | zero => rfl
  | succ n ih =>
    show (if nfit c s n > gfit c s n then nfit c s n else gfit c s n)
      = (if nfit c s ((n : Int)).toNat > scan_fit (nfit c s) (fun i => (i : Int)) s.g_best_fit n
        then nfit c s ((n : Int)).toNat
        else scan_fit (nfit c s) (fun i => (i : Int)) s.g_best_fit n)
    rw [ih, Int.toNat_ofNat]

theorem gpos_eq_scan (c : Config) (s : Swarm) (n : Nat) :
    gpos c s n
      = scan_pos c (nfit c s) (npos c s) (fun i => (i : Int)) s.g_best_fit s.g_best n := by
  induction n with
  | zero => rfl
  | succ n ih =>
    show (if nfit c s n > gfit c s n then copy_particle c (npos c s n) (gpos c s n)
        else gpos c s n)
      = (if nfit c s ((n : Int)).toNat > scan_fit (nfit c s) (fun i => (i : Int)) s.g_best_fit n
        then copy_particle c (npos c s ((n : Int)).toNat)
          (scan_pos c (nfit c s) (npos c s) (fun i => (i : Int)) s.g_best_fit s.g_best n)
        else scan_pos c (nfit c s) (npos c s) (fun i => (i : Int)) s.g_best_fit s.g_best n)
    rw [ih, gfit_eq_scan, Int.toNat_ofNat]

/-- C16. Index-ordered global-best scan equals batched-then-reduced with
lowest-index tie-break: in a state whose neighbor indices lie in `[0, N)`,
let `M` be the greatest of the neighborhood-best fitnesses that
`update_n_best` computes.  If `M` exceeds the old `g_best_fit`, then
afterwards `g_best_fit = M` and `g_best` holds the coefficients of
`n_best[is]` for the smallest index `is` whose new neighborhood-best fitness
is `M`; otherwise `g_best` and `g_best_fit` are unchanged (an equal fitness
does not replace the incumbent). -/
theorem C16_global_scan (c : Config) (s : Swarm)
    (_hnb : ∀ i j, i < c.SWARMSIZE → j < c.NEIGH_SIZE →
      0 ≤ s.neighbor i j ∧ s.neighbor i j < (c.SWARMSIZE : Int))
    (M : ℚ)
    (hM : IsGreatest {q | ∃ i, i < c.SWARMSIZE ∧ q = (update_n_best c s).n_best_fit i} M) :
    (M > s.g_best_fit →
      (update_n_best c s).g_best_fit = M
      ∧ ∃ is, is < c.SWARMSIZE ∧ (update_n_best c s).n_best_fit is = M
        ∧ (∀ i, i < is → (update_n_best c s).n_best_fit i ≠ M)
        ∧ ∀ l, l < c.DATASIZE → (update_n_best c s).g_best l = (update_n_best c s).n_best is l)
    ∧ (M ≤ s.g_best_fit →
      (update_n_best c s).g_best_fit = s.g_best_fit
      ∧ (update_n_best c s).g_best = s.g_best) := by
  have hnf : ∀ i, i < c.SWARMSIZE → (update_n_best c s).n_best_fit i = nfit c s i :=
    fun i hi => update_n_best_n_best_fit c s i hi
  have hnp : ∀ i, i < c.SWARMSIZE → (update_n_best c s).n_best i = npos c s i :=
    fun i hi => update_n_best_n_best c s i hi
  have hg : (update_n_best c s).g_best_fit
      = scan_fit (nfit c s) (fun i => (i : Int)) s.g_best_fit c.SWARMSIZE := by
    rw [update_n_best_eq]; exact gfit_eq_scan c s _
  have hp : (update_n_best c s).g_best
      = scan_pos c (nfit c s) (npos c s) (fun i => (i : Int)) s.g_best_fit s.g_best
        c.SWARMSIZE := by
    rw [update_n_best_eq]; exact gpos_eq_scan c s _
  obtain ⟨⟨i0, hi0, hMi0⟩, hub⟩ := hM
  rw [hnf i0 hi0] at hMi0
  have hle : ∀ i, i < c.SWARMSIZE → nfit c s i ≤ M := fun i hi =>
    hub ⟨i, hi, (hnf i hi).symm⟩
  constructor
  · intro hgt
    have hex : ∃ j, j < c.SWARMSIZE ∧ nfit c s ((fun i : Nat => (i : Int)) j).toNat
        > s.g_best_fit := ⟨i0, hi0, by simp only [Int.toNat_ofNat]; rw [← hMi0]; exact hgt⟩
    obtain ⟨is, his, h1, h2, h3⟩ :=
      scan_first c (nfit c s) (npos c s) (fun i => (i : Int)) s.g_best_fit s.g_best
        c.SWARMSIZE hex
    simp only [Int.toNat_ofNat] at h1 h2 h3
    have hge : M ≤ scan_fit (nfit c s) (fun i => (i : Int)) s.g_best_fit c.SWARMSIZE := by
      have := scan_fit_ge (nfit c s) (fun i => (i : Int)) s.g_best_fit c.SWARMSIZE i0 hi0
      simp only [Int.toNat_ofNat] at this
      rw [hMi0]; exact this
    have heq : scan_fit (nfit c s) (fun i => (i : Int)) s.g_best_fit c.SWARMSIZE = M :=
      le_antisymm (by rw [← h1]; exact hle is his) hge
    refine ⟨by rw [hg, heq], is, his, by rw [hnf is his, h1, heq], ?_, ?_⟩
    · intro i hi
      rw [hnf i (by omega), ← heq]
      exact ne_of_lt (h2 i hi)
    · intro l hl
      rw [hp, hnp is his]
      exact h3 l hl
  · intro hle2
    have hall : ∀ j, j < c.SWARMSIZE →
        nfit c s ((fun i : Nat => (i : Int)) j).toNat ≤ s.g_best_fit := by
      intro j hj
      simp only [Int.toNat_ofNat]
      exact le_trans (hle j hj) hle2
    have h := scan_unchanged c (nfit c s) (npos c s) (fun i => (i : Int)) s.g_best_fit
      s.g_best c.SWARMSIZE hall
    exact ⟨by rw [hg]; exact h.1, by rw [hp]; exact h.2⟩

theorem C16_global_scan_witness :
    (∀ i j, i < header.SWARMSIZE → j < header.NEIGH_SIZE →
      0 ≤ zeroSwarm.neighbor i j ∧ zeroSwarm.neighbor i j < (header.SWARMSIZE : Int))
    ∧ IsGreatest {q | ∃ i, i < header.SWARMSIZE
        ∧ q = (update_n_best header zeroSwarm).n_best_fit i} 0
    ∧ ((0 : ℚ) ≤ zeroSwarm.g_best_fit →
      (update_n_best header zeroSwarm).g_best_fit = zeroSwarm.g_best_fit
      ∧ (update_n_best header zeroSwarm).g_best = zeroSwarm.g_best) := by
  have hnb : ∀ i j, i < header.SWARMSIZE → j < header.NEIGH_SIZE →
      0 ≤ zeroSwarm.neighbor i j ∧ zeroSwarm.neighbor i j < (header.SWARMSIZE : Int) :=
    fun _ _ _ _ => ⟨le_refl _, by norm_num [zeroSwarm, header]⟩
  have hz : ∀ i, i < header.SWARMSIZE → (update_n_best header zeroSwarm).n_best_fit i = 0 := by
    intro i hi
    rw [update_n_best_n_best_fit header zeroSwarm i hi]
    have h := (scan_unchanged header zeroSwarm.p_best_fit zeroSwarm.p_best
      (zeroSwarm.neighbor i) (zeroSwarm.n_best_fit i) (zeroSwarm.n_best i) header.NEIGH_SIZE
      (fun _ _ => by simp [zeroSwarm])).1
    exact h
  have hM : IsGreatest {q | ∃ i, i < header.SWARMSIZE
      ∧ q = (update_n_best header zeroSwarm).n_best_fit i} 0 := by
    have h0 : (0 : Nat) < header.SWARMSIZE := by decide
    constructor
    · show ∃ i, i < header.SWARMSIZE ∧ 0 = (update_n_best header zeroSwarm).n_best_fit i
      exact ⟨0, h0, (hz 0 h0).symm⟩
    · intro q hq
      obtain ⟨i, hi, hq⟩ := hq
      rw [hq, hz i hi]
  exact ⟨hnb, hM, (C16_global_scan header zeroSwarm hnb 0 hM).2⟩

/-! ## The global best does not feed back into the search -/

/-- C17. The global best never influences the search: if two states agree on
`x`, `v`, `x_fit`, `p_best`, `p_best_fit`, `p_best_times`, `neighbor`,
`n_best` and `n_best_fit` (and on the position in the streams of `rand()` and
`fitness` results) but differ arbitrarily in `g_best` and `g_best_fit`, then
after one full iteration (`update_particle_positions`, `evaluate_particles`,
`update_p_best`, `update_n_best`) with the same draws and the same fitness
function they agree on all of these again. -/
theorem C17_global_best_no_influence (e : Env) (c : Config) (s t : Swarm)
    (h : same_search s t) :
    same_search
      (update_n_best c (update_p_best c (evaluate_particles e c
        (update_particle_positions e c s))))
      (update_n_best c (update_p_best c (evaluate_particles e c
        (update_particle_positions e c t)))) := by
  obtain ⟨x, v, x_fit, p_best, p_best_fit, p_best_times, neighbor, n_best, n_best_fit,
    g_best, g_best_fit, fit_log, rand_calls, fit_calls⟩ := s
  obtain ⟨x2, v2, x_fit2, p_best2, p_best_fit2, p_best_times2, neighbor2, n_best2, n_best_fit2,
    g_best2, g_best_fit2, fit_log2, rand_calls2, fit_calls2⟩ := t
  unfold same_search at h
  simp only at h
  obtain ⟨rfl, rfl, rfl, rfl, rfl, rfl, rfl, rfl, rfl, rfl, rfl⟩ := h
  simp only [update_n_best_eq, update_p_best_eq, evaluate_particles_eq,
    update_particle_positions_eq]
  exact ⟨rfl, rfl, rfl, rfl, rfl, rfl, rfl, rfl, rfl, rfl, rfl⟩

theorem C17_global_best_no_influence_witness :
    same_search zeroSwarm { zeroSwarm with g_best := fun _ => 5, g_best_fit := 7 }
    ∧ same_search
      (update_n_best header (update_p_best header (evaluate_particles env1 header
        (update_particle_positions env1 header zeroSwarm))))
      (update_n_best header (update_p_best header (evaluate_particles env1 header
        (update_particle_positions env1 header
          { zeroSwarm with g_best := fun _ => 5, g_best_fit := 7 })))) :=
  ⟨⟨rfl, rfl, rfl, rfl, rfl, rfl, rfl, rfl, rfl, rfl, rfl⟩,
    C17_global_best_no_influence env1 header zeroSwarm
      { zeroSwarm with g_best := fun _ => 5, g_best_fit := 7 }
      ⟨rfl, rfl, rfl, rfl, rfl, rfl, rfl, rfl, rfl, rfl, rfl⟩⟩

/-! ## Re-evaluation of the personal bests under `NOISY` -/

theorem evaluate_best_apply (e : Env) (c : Config) (s : Swarm) (i : Nat)
    (hi : i < c.SWARMSIZE) :
    (evaluate_best e c s).p_best_fit i
      = (s.p_best_fit i * (s.p_best_times i : ℚ)
          + e.fitness (s.fit_calls + i) (coeffs c (s.p_best i))) / ((s.p_best_times i : ℚ) + 1)
    ∧ (evaluate_best e c s).p_best_times i = s.p_best_times i + 1
    ∧ (evaluate_best e c s).p_best = s.p_best := by
  rw [evaluate_best_eq]
  simp [hi]

theorem rescored_apply (e : Env) (c : Config) (s : Swarm) (i : Nat) (hi : i < c.SWARMSIZE) :
    (pso_iteration_rescored e c s).p_best_fit i
      = (s.p_best_fit i * (s.p_best_times i : ℚ) + reeval_sample e c s i)
          / ((s.p_best_times i : ℚ) + 1)
    ∧ (pso_iteration_rescored e c s).p_best_times i = s.p_best_times i + 1
    ∧ (pso_iteration_rescored e c s).p_best = s.p_best := by
  have h := evaluate_best_apply e c (evaluate_particles e c (update_particle_positions e c s))
    i hi
  have h1 : (evaluate_particles e c (update_particle_positions e c s)).p_best_fit
      = s.p_best_fit := by
    rw [evaluate_particles_eq, update_particle_positions_eq]
  have h2 : (evaluate_particles e c (update_particle_positions e c s)).p_best_times
      = s.p_best_times := by
    rw [evaluate_particles_eq, update_particle_positions_eq]
  have h3 : (evaluate_particles e c (update_particle_positions e c s)).p_best = s.p_best := by
    rw [evaluate_particles_eq, update_particle_positions_eq]
  rw [h1, h2, h3] at h
  exact h

theorem pso_iteration_noisy_keep (e : Env) (c : Config) (hNoisy : c.NOISY = true) (s : Swarm)
    (i : Nat)
    (hkeep : (pso_iteration_rescored e c s).x_fit i ≤ (pso_iteration_rescored e c s).p_best_fit i) :
    (pso_iteration e c s).p_best_fit i = (pso_iteration_rescored e c s).p_best_fit i
    ∧ (pso_iteration e c s).p_best_times i = (pso_iteration_rescored e c s).p_best_times i
    ∧ (pso_iteration e c s).p_best i = (pso_iteration_rescored e c s).p_best i := by
  have hsplit : pso_iteration e c s
      = update_n_best c (update_p_best c (pso_iteration_rescored e c s)) := by
    unfold pso_iteration pso_iteration_rescored
    simp [hNoisy]
  have hng : ¬ ((pso_iteration_rescored e c s).x_fit i
      > (pso_iteration_rescored e c s).p_best_fit i) := not_lt.mpr hkeep
  rw [hsplit, update_n_best_eq, update_p_best_eq]
  simp [hng]

/-- C11. Noisy re-evaluation is a running average: for particle `i`,
`evaluate_best` sets `p_best_fit[i]` to
`(p_best_fit[i]*p_best_times[i] + fitness(p_best[i])) / (p_best_times[i]+1)`
and increments `p_best_times[i]`; consequently, under `NOISY`, if the personal
best of `i` is stored with count 1 and fitness `f0` and is not replaced during
the next `m` iterations, then after them the stored position is the same, the
count is `m + 1` and the stored fitness is `(f0 + s1 + ... + sm) / (m + 1)`,
where `sk` is the sample that `evaluate_best` obtained in iteration `k`. -/
theorem C11_running_average (e : Env) (c : Config) (hNoisy : c.NOISY = true) (i : Nat)
    (hi : i < c.SWARMSIZE) :
    (∀ s, (evaluate_best e c s).p_best_fit i
        = (s.p_best_fit i * (s.p_best_times i : ℚ)
            + e.fitness (s.fit_calls + i) (coeffs c (s.p_best i)))
          / ((s.p_best_times i : ℚ) + 1)
      ∧ (evaluate_best e c s).p_best_times i = s.p_best_times i + 1)
    ∧ (∀ s m, s.p_best_times i = 1 →
      (∀ k, k < m →
        (pso_iteration_rescored e c (pso_iterate e c k s)).x_fit i
          ≤ (pso_iteration_rescored e c (pso_iterate e c k s)).p_best_fit i) →
      (pso_iterate e c m s).p_best_fit i
          = (s.p_best_fit i
              + ∑ k in Finset.range m, reeval_sample e c (pso_iterate e c k s) i)
            / ((m : ℚ) + 1)
        ∧ (pso_iterate e c m s).p_best_times i = (m : Int) + 1
        ∧ (pso_iterate e c m s).p_best i = s.p_best i) := by
  refine ⟨fun s => ⟨(evaluate_best_apply e c s i hi).1, (evaluate_best_apply e c s i hi).2.1⟩, ?_⟩
  intro s m h1 hkeep
  induction m with
  | zero =>
    refine ⟨?_, ?_, rfl⟩
    · show s.p_best_fit i = _
      simp
    · show s.p_best_times i = _
      rw [h1]; rfl
  | succ m ih =>
    obtain ⟨ihf, iht, ihp⟩ := ih (fun k hk => hkeep k (Nat.lt_succ_of_lt hk))
    have hk := pso_iteration_noisy_keep e c hNoisy (pso_iterate e c m s) i
      (hkeep m (Nat.lt_succ_self m))
    have hr := rescored_apply e c (pso_iterate e c m s) i hi
    have hsucc : pso_iterate e c (m + 1) s = pso_iteration e c (pso_iterate e c m s) := rfl
    rw [hsucc]
    refine ⟨?_, ?_, ?_⟩
    · rw [hk.1, hr.1, ihf, iht, Finset.sum_range_succ]
      have hm : ((m : ℚ) + 1) ≠ 0 := by positivity
      have hm2 : ((m : ℚ) + 1 + 1) ≠ 0 := by positivity
      push_cast
      field_simp
      ring
    · rw [hk.2.1, hr.2.1, iht]
      push_cast
      ring
    · rw [hk.2.2, hr.2.2]
      exact ihp

theorem C11_running_average_witness :
    headerNoisy.NOISY = true ∧ (0 : Nat) < headerNoisy.SWARMSIZE
    ∧ storedSwarm.p_best_times 0 = 1
    ∧ (pso_iterate env0 headerNoisy 1 storedSwarm).p_best_fit 0
        = (storedSwarm.p_best_fit 0
            + ∑ k in Finset.range 1,
                reeval_sample env0 headerNoisy (pso_iterate env0 headerNoisy k storedSwarm) 0)
          / (((1 : Nat) : ℚ) + 1) := by
  have hi : (0 : Nat) < headerNoisy.SWARMSIZE := by decide
  have hkeep : ∀ k, k < 1 →
      (pso_iteration_rescored env0 headerNoisy (pso_iterate env0 headerNoisy k storedSwarm)).x_fit 0
        ≤ (pso_iteration_rescored env0 headerNoisy
            (pso_iterate env0 headerNoisy k storedSwarm)).p_best_fit 0 := by
    intro k hk
    have hk0 : k = 0 := by omega
    subst hk0
    have hs : pso_iterate env0 headerNoisy 0 storedSwarm = storedSwarm := rfl
    rw [hs, (rescored_apply env0 headerNoisy storedSwarm 0 hi).1]
    have hx : (pso_iteration_rescored env0 headerNoisy storedSwarm).x_fit 0 = 0 := by
      unfold pso_iteration_rescored
      rw [evaluate_best_eq, evaluate_particles_eq]
      simp [hi, env0]
    rw [hx]
    norm_num [storedSwarm, reeval_sample, env0]
  exact ⟨rfl, hi, rfl,
    ((C11_running_average env0 headerNoisy rfl 0 hi).2 storedSwarm 1 rfl hkeep).1⟩

/-! ## Stored fitnesses belong to the stored positions -/

theorem coeffs_congr (c : Config) (a b : Nat → ℚ) (h : ∀ l, l < c.DATASIZE → a l = b l) :
    coeffs c a = coeffs c b := by
  unfold coeffs
  apply List.map_congr_left
  intro l hl
  exact h l (List.mem_range.mp hl)

theorem coeffs_copy_particle (c : Config) (org dest : Nat → ℚ) :
    coeffs c (copy_particle c org dest) = coeffs c org := by
  apply coeffs_congr
  intro l hl
  rw [copy_particle_apply, if_pos hl]

/-- A scan keeps fitness and position together, provided the candidates do
and either the start does or some candidate beats the start. -/
theorem scan_consistent (f : List ℚ → ℚ) (c : Config) (pf : Nat → ℚ) (pb : Nat → Nat → ℚ)
    (nb : Nat → Int) (f0 : ℚ) (b0 : Nat → ℚ) (m : Nat)
    (hcand : ∀ j, j < m → f (coeffs c (pb (nb j).toNat)) = pf (nb j).toNat)
    (hstart : f (coeffs c b0) = f0 ∨ ∃ j, j < m ∧ pf (nb j).toNat > f0) :
    f (coeffs c (scan_pos c pf pb nb f0 b0 m)) = scan_fit pf nb f0 m := by
  by_cases hex : ∃ j, j < m ∧ pf (nb j).toNat > f0
  · obtain ⟨js, hjs, h1, _, h3⟩ := scan_first c pf pb nb f0 b0 m hex
    rw [coeffs_congr c _ _ h3, hcand js hjs, h1]
  · have hall : ∀ j, j < m → pf (nb j).toNat ≤ f0 := by
      intro j hj
      exact not_lt.mp (fun hgt => hex ⟨j, hj, hgt⟩)
    obtain ⟨h1, h2⟩ := scan_unchanged c pf pb nb f0 b0 m hall
    rw [h1, h2]
    rcases hstart with h | h
    · exact h
    · exact absurd h hex

theorem update_n_best_consistent (f : List ℚ → ℚ) (c : Config) (s : Swarm)
    (hN : 1 ≤ c.SWARMSIZE) (hring : ring_neighbors c s)
    (hp : ∀ i, i < c.SWARMSIZE → f (coeffs c (s.p_best i)) = s.p_best_fit i)
    (hn : ∀ i, i < c.SWARMSIZE → f (coeffs c (s.n_best i)) = s.n_best_fit i
      ∨ ∃ j, j < c.NEIGH_SIZE ∧ s.p_best_fit (s.neighbor i j).toNat > s.n_best_fit i)
    (hg : f (coeffs c s.g_best) = s.g_best_fit
      ∨ ∃ i, i < c.SWARMSIZE ∧ nfit c s i > s.g_best_fit) :
    fit_consistent f c (update_n_best c s) := by
  have hnn : ∀ i, i < c.SWARMSIZE → f (coeffs c (npos c s i)) = nfit c s i := by
    intro i hi
    apply scan_consistent f c _ _ _ _ _ _ _ (hn i hi)
    intro j hj
    apply hp
    rw [hring i j hi hj]
    exact ring_index_toNat_lt c hN i j
  rw [update_n_best_eq]
  refine ⟨hp, ?_, ?_⟩
  · intro i hi
    simp only [hi, if_true]
    exact hnn i hi
  · show f (coeffs c (gpos c s c.SWARMSIZE)) = gfit c s c.SWARMSIZE
    rw [gpos_eq_scan, gfit_eq_scan]
    apply scan_consistent
    · intro j hj
      simp only [Int.toNat_ofNat]
      exact hnn j hj
    · rcases hg with h | ⟨i, hi, h⟩
      · exact Or.inl h
      · exact Or.inr ⟨i, hi, by simp only [Int.toNat_ofNat]; exact h⟩

theorem particles_init_consistent (e : Env) (c : Config) (f : List ℚ → ℚ)
    (hdet : ∀ k p, e.fitness k p = f p) (hpos : ∀ p, -1 < f p)
    (hN : 1 ≤ c.SWARMSIZE) (hK : 1 ≤ c.NEIGH_SIZE) (s : Swarm) :
    fit_consistent f c (particles_init e c s) := by
  have hpos2 : ∀ k p, -1 < e.fitness k p := fun k p => by rw [hdet]; exact hpos p
  have hpb : (particles_init_seeded e c s).p_best = (particles_init e c s).p_best := by
    rw [particles_init_split, update_n_best_eq]
  have hpf : ∀ i, i < c.SWARMSIZE → (particles_init_seeded e c s).p_best_fit i
      = f (coeffs c ((particles_init e c s).x i)) := by
    intro i hi
    rw [← particles_init_p_best_fit, init_p_best_fit e c hpos2 s i hi]
    exact hdet _ _
  have hpf1 : ∀ i, i < c.SWARMSIZE → -1 < (particles_init_seeded e c s).p_best_fit i :=
    fun i hi => by rw [hpf i hi]; exact hpos _
  rw [particles_init_split]
  apply update_n_best_consistent f c _ hN (seeded_ring e c s)
  · intro i hi
    rw [hpb, hpf i hi]
    have h := particles_init_p_best e c s i hi
      (by rw [seeded_x_fit e c s i hi]; exact hpos2 _ _)
    rw [coeffs_congr c _ _ h.1]
  · intro i hi
    refine Or.inr ⟨0, by omega, ?_⟩
    rw [seeded_n_best_fit e c s i hi]
    apply hpf1
    rw [seeded_ring e c s i 0 hi (by omega)]
    exact ring_index_toNat_lt c hN i 0
  · refine Or.inr ⟨0, by omega, ?_⟩
    rw [seeded_g_best_fit]
    have h1 := scan_fit_ge (particles_init_seeded e c s).p_best_fit
      ((particles_init_seeded e c s).neighbor 0) ((particles_init_seeded e c s).n_best_fit 0)
      c.NEIGH_SIZE 0 (by omega)
    have h2 : -1 < (particles_init_seeded e c s).p_best_fit
        ((particles_init_seeded e c s).neighbor 0 0).toNat := by
      apply hpf1
      rw [seeded_ring e c s 0 0 (by omega) (by omega)]
      exact ring_index_toNat_lt c hN 0 0
    exact lt_of_lt_of_le h2 h1

theorem pso_iteration_consistent (e : Env) (c : Config) (f : List ℚ → ℚ)
    (hdet : ∀ k p, e.fitness k p = f p) (hNoisy : c.NOISY = false)
    (hN : 1 ≤ c.SWARMSIZE) (s : Swarm) (hring : ring_neighbors c s)
    (h : fit_consistent f c s) : fit_consistent f c (pso_iteration e c s) := by
  obtain ⟨hp, hn, hg⟩ := h
  have hnb : (pso_iteration_scored e c s).neighbor = s.neighbor := by
    unfold pso_iteration_scored
    rw [update_p_best_eq, evaluate_particles_eq, update_particle_positions_eq]
  have hnf : (pso_iteration_scored e c s).n_best_fit = s.n_best_fit := by
    unfold pso_iteration_scored
    rw [update_p_best_eq, evaluate_particles_eq, update_particle_positions_eq]
  have hnp : (pso_iteration_scored e c s).n_best = s.n_best := by
    unfold pso_iteration_scored
    rw [update_p_best_eq, evaluate_particles_eq, update_particle_positions_eq]
  have hgf : (pso_iteration_scored e c s).g_best_fit = s.g_best_fit := by
    unfold pso_iteration_scored
    rw [update_p_best_eq, evaluate_particles_eq, update_particle_positions_eq]
  have hgp : (pso_iteration_scored e c s).g_best = s.g_best := by
    unfold pso_iteration_scored
    rw [update_p_best_eq, evaluate_particles_eq, update_particle_positions_eq]
  rw [pso_iteration_split e c hNoisy]
  apply update_n_best_consistent f c _ hN
  · intro i j hi hj
    rw [hnb]; exact hring i j hi hj
  · intro i hi
    unfold pso_iteration_scored
    rw [update_p_best_eq, evaluate_particles_eq, update_particle_positions_eq]
    simp only [hi, true_and, if_true]
    split
    · rw [coeffs_copy_particle, hdet]
    · exact hp i hi
  · intro i hi
    rw [hnp, hnf]
    exact Or.inl (hn i hi)
  · rw [hgp, hgf]
    exact Or.inl hg

theorem pso_run_after_consistent (e : Env) (c : Config) (f : List ℚ → ℚ)
    (hdet : ∀ k p, e.fitness k p = f p) (hpos : ∀ p, -1 < f p) (hNoisy : c.NOISY = false)
    (hN : 1 ≤ c.SWARMSIZE) (hK : 1 ≤ c.NEIGH_SIZE) (s : Swarm) (k : Nat) :
    fit_consistent f c (pso_run_after e c k s) := by
  induction k with
  | zero => exact particles_init_consistent e c f hdet hpos hN hK _
  | succ k ih =>
    rw [pso_run_after_succ]
    exact pso_iteration_consistent e c f hdet hNoisy hN _
      (pso_run_after_best_inv e c hNoisy hN hK s k).1 ih

theorem pso_run_last_log (e : Env) (c : Config) (s : Swarm) (r : Nat × ℚ)
    (h : (pso_run_state e c s).fit_log.getLast? = some r) :
    r.2 = (pso_run_state e c s).g_best_fit := by
  unfold pso_run_state at h ⊢
  generalize PSO_ITERATIONS c = T at h ⊢
  cases T with
  | zero =>
    rw [pso_run_after_log] at h
    simp at h
  | succ n =>
    rw [pso_run_after_log, List.range_succ, List.map_append] at h
    simp at h
    rw [← h]

/-- C18. Stored best fitnesses match stored best positions: in non-noisy
mode, for a deterministic fitness function `f` whose values are all `> -1`,
with `SWARMSIZE ≥ 1` and `NEIGH_SIZE ≥ 1`, after `particles_init` and after
every iteration of `pso_run` the stored fitness of every personal best, of
every neighborhood best and of the global best is `f` of the stored position;
hence `f` of the position returned by `pso_run` equals the last logged
global-best fitness. -/
theorem C18_fitness_matches_position (e : Env) (c : Config) (f : List ℚ → ℚ)
    (hdet : ∀ k p, e.fitness k p = f p) (hpos : ∀ p, -1 < f p) (hNoisy : c.NOISY = false)
    (hN : 1 ≤ c.SWARMSIZE) (hK : 1 ≤ c.NEIGH_SIZE) (s : Swarm) :
    ((∀ i, i < c.SWARMSIZE →
        f (coeffs c ((particles_init e c s).p_best i)) = (particles_init e c s).p_best_fit i
        ∧ f (coeffs c ((particles_init e c s).n_best i)) = (particles_init e c s).n_best_fit i)
      ∧ f (coeffs c (particles_init e c s).g_best) = (particles_init e c s).g_best_fit)
    ∧ (∀ k, (∀ i, i < c.SWARMSIZE →
        f (coeffs c ((pso_run_after e c k s).p_best i)) = (pso_run_after e c k s).p_best_fit i
        ∧ f (coeffs c ((pso_run_after e c k s).n_best i))
            = (pso_run_after e c k s).n_best_fit i)
      ∧ f (coeffs c (pso_run_after e c k s).g_best) = (pso_run_after e c k s).g_best_fit)
    ∧ (∀ r, (pso_run_state e c s).fit_log.getLast? = some r → f (pso_run e c s) = r.2) := by
  refine ⟨?_, fun k => ?_, fun r hr => ?_⟩
  · obtain ⟨h1, h2, h3⟩ := particles_init_consistent e c f hdet hpos hN hK s
    exact ⟨fun i hi => ⟨h1 i hi, h2 i hi⟩, h3⟩
  · obtain ⟨h1, h2, h3⟩ := pso_run_after_consistent e c f hdet hpos hNoisy hN hK s k
    exact ⟨fun i hi => ⟨h1 i hi, h2 i hi⟩, h3⟩
  · rw [pso_run_last_log e c s r hr]
    exact (pso_run_after_consistent e c f hdet hpos hNoisy hN hK s (PSO_ITERATIONS c)).2.2

theorem C18_fitness_matches_position_witness :
    (∀ k p, scenarioEnv.fitness k p = fitness scenario p) ∧ (∀ p, -1 < fitness scenario p)
    ∧ scenario.NOISY = false ∧ 1 ≤ scenario.SWARMSIZE ∧ 1 ≤ scenario.NEIGH_SIZE
    ∧ fitness scenario (coeffs scenario (particles_init scenarioEnv scenario zeroSwarm).g_best)
        = (particles_init scenarioEnv scenario zeroSwarm).g_best_fit :=
  ⟨fun _ _ => rfl, fun p => lt_trans (by norm_num) (fitness_pos scenario p), rfl, by decide,
    by decide,
    (C18_fitness_matches_position scenarioEnv scenario (fitness scenario) (fun _ _ => rfl)
      (fun p => lt_trans (by norm_num) (fitness_pos scenario p)) rfl (by decide) (by decide)
      zeroSwarm).1.2⟩

/-! ## A log file that cannot be opened -/

theorem particles_init_calls (e : Env) (c : Config) (s : Swarm) :
    (particles_init e c s).rand_calls = s.rand_calls + 2 * (c.SWARMSIZE * c.DATASIZE)
    ∧ (particles_init e c s).fit_calls = s.fit_calls + c.SWARMSIZE := by
  unfold particles_init
  rw [update_n_best_eq, find_neighborhood_eq, update_p_best_eq, evaluate_particles_eq,
    particles_init_reset_eq]
  exact ⟨rfl, rfl⟩

theorem pso_iteration_calls (e : Env) (c : Config) (s : Swarm) :
    (pso_iteration e c s).rand_calls = s.rand_calls + 2 * (c.SWARMSIZE * c.DATASIZE)
    ∧ s.fit_calls + c.SWARMSIZE ≤ (pso_iteration e c s).fit_calls := by
  unfold pso_iteration
  cases c.NOISY
  · simp only [Bool.false_eq_true, if_false]
    rw [update_n_best_eq, update_p_best_eq, evaluate_particles_eq, update_particle_positions_eq]
    exact ⟨rfl, le_refl _⟩
  · simp only [if_true]
    rw [update_n_best_eq, update_p_best_eq, evaluate_best_eq, evaluate_particles_eq,
      update_particle_positions_eq]
    exact ⟨rfl, Nat.le_add_right _ _⟩

theorem pso_iteration_fit_calls (e : Env) (c : Config) (hNoisy : c.NOISY = false)
    (s : Swarm) : (pso_iteration e c s).fit_calls = s.fit_calls + c.SWARMSIZE := by
  rw [pso_iteration_split e c hNoisy]
  unfold pso_iteration_scored
  rw [update_n_best_eq, update_p_best_eq, evaluate_particles_eq, update_particle_positions_eq]

theorem C13_counterexample :
    (pso_run_fopen env0 header false zeroSwarm).1.rand_calls = 2400
    ∧ (pso_run_fopen env0 header false zeroSwarm).1.fit_calls = 200
    ∧ ¬ fail_fast env0 header zeroSwarm := by
  have hT : ¬ PSO_ITERATIONS header = 0 := by decide
  have h : (pso_run_fopen env0 header false zeroSwarm).1
      = pso_iteration env0 header (particles_init env0 header zeroSwarm) := by
    unfold pso_run_fopen
    simp [hT]
  have hi := particles_init_calls env0 header zeroSwarm
  have hr : (pso_run_fopen env0 header false zeroSwarm).1.rand_calls = 2400 := by
    rw [h, (pso_iteration_calls env0 header _).1, hi.1]
    norm_num [zeroSwarm, header]
  have hf : (pso_run_fopen env0 header false zeroSwarm).1.fit_calls = 200 := by
    rw [h, pso_iteration_fit_calls env0 header rfl, hi.2]
    norm_num [zeroSwarm, header]
  refine ⟨hr, hf, fun hff => ?_⟩
  have h2 := hff.2
  rw [hf] at h2
  have h3 : zeroSwarm.fit_calls = 0 := rfl
  rw [h3] at h2
  exact absurd h2 (by norm_num)

/-- C13 (amended). A log file that cannot be opened does not stop the run
before the particle work: `pso_run` does not test the result of `fopen`, so
`particles_init` is executed in full (its `2 * SWARMSIZE * DATASIZE` draws
and its `SWARMSIZE` fitness evaluations take place) before the stream is
first used; with at least one particle the fail-fast behaviour does not
hold. -/
theorem C13_no_fail_fast (e : Env) (c : Config) (s : Swarm) :
    s.rand_calls + 2 * (c.SWARMSIZE * c.DATASIZE) ≤ (pso_run_fopen e c false s).1.rand_calls
    ∧ s.fit_calls + c.SWARMSIZE ≤ (pso_run_fopen e c false s).1.fit_calls
    ∧ (1 ≤ c.SWARMSIZE → ¬ fail_fast e c s) := by
  have hi := particles_init_calls e c s
  have hit := pso_iteration_calls e c (particles_init e c s)
  have hf : s.fit_calls + c.SWARMSIZE ≤ (pso_run_fopen e c false s).1.fit_calls := by
    unfold pso_run_fopen
    by_cases hT : PSO_ITERATIONS c = 0
    · simp only [Bool.false_eq_true, if_false, hT, if_true]
      rw [hi.2]
    · simp only [Bool.false_eq_true, if_false, hT]
      have := hit.2
      rw [hi.2] at this
      omega
  refine ⟨?_, hf, fun hN hff => ?_⟩
  · unfold pso_run_fopen
    by_cases hT : PSO_ITERATIONS c = 0
    · simp only [Bool.false_eq_true, if_false, hT, if_true]
      rw [hi.1]
    · simp only [Bool.false_eq_true, if_false, hT]
      rw [hit.1, hi.1]
      omega
  · have h2 := hff.2
    rw [h2] at hf
    omega

theorem C13_no_fail_fast_witness :
    1 ≤ header.SWARMSIZE ∧ ¬ fail_fast env0 header zeroSwarm :=
  ⟨by decide, (C13_no_fail_fast env0 header zeroSwarm).2.2 (by decide)⟩

/-! ## The end-to-end scenario -/

theorem scenario_uniform (k : Nat) (a b : ℚ) :
    uniform scenario (scenarioEnv.rand k) a b = (a + b) / 2 := by
  simp only [uniform, scenario, scenarioEnv]
  push_cast
  ring

theorem scenario_coeffs (p : Nat → ℚ) : coeffs scenario p = [p 0] := by
  simp [coeffs, scenario, List.range_succ]

theorem scenario_fitness (x : ℚ) :
    fitness scenario [x] = if x = 0 then 100000 else 1 / x ^ 2 := by
  by_cases h : x = 0
  · subst h
    norm_num [fitness, scenario, forLoop]
  · have h2 : x ^ 2 ≠ 0 := pow_ne_zero 2 h
    simp [fitness, scenario, forLoop, h]

theorem scenario_fitness_zero (k : Nat) (p : Nat → ℚ) (h : p 0 = 0) :
    scenarioEnv.fitness k (coeffs scenario p) = 100000 := by
  show fitness scenario (coeffs scenario p) = 100000
  rw [scenario_coeffs, h, scenario_fitness, if_pos rfl]

theorem scenario_init_pos (s : Swarm) (i : Nat) (hi : i < 2) :
    (particles_init scenarioEnv scenario s).x i 0 = 0
    ∧ (particles_init scenarioEnv scenario s).v i 0 = 0 := by
  have hi2 : i < scenario.SWARMSIZE := hi
  have h0 : (0 : Nat) < scenario.DATASIZE := by decide
  constructor
  · rw [particles_init_x, particles_init_reset_eq]
    simp only [hi2, h0, and_self, if_true]
    rw [scenario_uniform]
    norm_num [scenario]
  · rw [particles_init_v, particles_init_reset_eq]
    simp only [hi2, h0, and_self, if_true]
    rw [scenario_uniform]
    norm_num [scenario]

/-- A scan over candidates that all have fitness `F` and coefficient `P` at
index `l` ends with fitness `F` and coefficient `P`, when the start is worse
than `F` or already has fitness `F` and coefficient `P`. -/
theorem scan_flat (c : Config) (pf : Nat → ℚ) (pb : Nat → Nat → ℚ) (nb : Nat → Int)
    (f0 : ℚ) (b0 : Nat → ℚ) (m : Nat) (F P : ℚ) (l : Nat) (hl : l < c.DATASIZE)
    (hm : 1 ≤ m) (hpf : ∀ j, j < m → pf (nb j).toNat = F)
    (hpb : ∀ j, j < m → pb (nb j).toNat l = P)
    (h0 : f0 < F ∨ (f0 = F ∧ b0 l = P)) :
    scan_fit pf nb f0 m = F ∧ scan_pos c pf pb nb f0 b0 m l = P := by
  rcases h0 with h | ⟨h1, h2⟩
  · have hex : ∃ j, j < m ∧ pf (nb j).toNat > f0 := ⟨0, by omega, by rw [hpf 0 (by omega)]; exact h⟩
    obtain ⟨js, hjs, h3, _, h5⟩ := scan_first c pf pb nb f0 b0 m hex
    exact ⟨by rw [← h3, hpf js hjs], by rw [h5 l hl, hpb js hjs]⟩
  · have hall : ∀ j, j < m → pf (nb j).toNat ≤ f0 := fun j hj => by rw [hpf j hj, h1]
    obtain ⟨h3, h4⟩ := scan_unchanged c pf pb nb f0 b0 m hall
    exact ⟨by rw [h3, h1], by rw [h4, h2]⟩

/-- `update_n_best` on a swarm whose personal bests all have fitness `F` and
coefficient `P` at index `l`. -/
theorem update_n_best_flat (c : Config) (s : Swarm) (F P : ℚ) (l : Nat)
    (hl : l < c.DATASIZE) (hN : 1 ≤ c.SWARMSIZE) (hK : 1 ≤ c.NEIGH_SIZE)
    (hring : ring_neighbors c s)
    (hpf : ∀ i, i < c.SWARMSIZE → s.p_best_fit i = F)
    (hpb : ∀ i, i < c.SWARMSIZE → s.p_best i l = P)
    (hnf : ∀ i, i < c.SWARMSIZE →
      s.n_best_fit i < F ∨ (s.n_best_fit i = F ∧ s.n_best i l = P))
    (hg : s.g_best_fit < F ∨ (s.g_best_fit = F ∧ s.g_best l = P)) :
    (∀ i, i < c.SWARMSIZE →
      (update_n_best c s).n_best_fit i = F ∧ (update_n_best c s).n_best i l = P)
    ∧ (update_n_best c s).g_best_fit = F ∧ (update_n_best c s).g_best l = P := by
  have hn : ∀ i, i < c.SWARMSIZE → nfit c s i = F ∧ npos c s i l = P := by
    intro i hi
    have hidx : ∀ j, j < c.NEIGH_SIZE → (s.neighbor i j).toNat < c.SWARMSIZE := by
      intro j hj
      rw [hring i j hi hj]
      exact ring_index_toNat_lt c hN i j
    exact scan_flat c s.p_best_fit s.p_best (s.neighbor i) (s.n_best_fit i) (s.n_best i)
      c.NEIGH_SIZE F P l hl hK (fun j hj => hpf _ (hidx j hj)) (fun j hj => hpb _ (hidx j hj))
      (hnf i hi)
  have hgs := scan_flat c (nfit c s) (npos c s) (fun i => (i : Int)) s.g_best_fit s.g_best
    c.SWARMSIZE F P l hl hN
    (fun j hj => by simp only [Int.toNat_ofNat]; exact (hn j hj).1)
    (fun j hj => by simp only [Int.toNat_ofNat]; exact (hn j hj).2) hg
  rw [← gfit_eq_scan, ← gpos_eq_scan] at hgs
  refine ⟨fun i hi => ?_, ?_, ?_⟩
  · rw [update_n_best_n_best_fit c s i hi, update_n_best_n_best c s i hi]
    exact hn i hi
  · rw [update_n_best_eq]; exact hgs.1
  · rw [update_n_best_eq]; exact hgs.2

theorem scenario_init_rest (s : Swarm) :
    scenario_rest (particles_init scenarioEnv scenario s) := by
  have hpos : ∀ k p, -1 < scenarioEnv.fitness k p := fun k p =>
    lt_trans (by norm_num) (fitness_pos scenario p)
  have hN : 1 ≤ scenario.SWARMSIZE := by decide
  have hK : 1 ≤ scenario.NEIGH_SIZE := by decide
  have h0 : (0 : Nat) < scenario.DATASIZE := by decide
  have hxf : ∀ i, i < 2 → (particles_init_seeded scenarioEnv scenario s).x_fit i = 100000 := by
    intro i hi
    rw [seeded_x_fit scenarioEnv scenario s i hi]
    exact scenario_fitness_zero _ _ (scenario_init_pos s i hi).1
  have hpf : ∀ i, i < scenario.SWARMSIZE →
      (particles_init_seeded scenarioEnv scenario s).p_best_fit i = 100000 := by
    intro i hi
    rw [← particles_init_p_best_fit, init_p_best_fit scenarioEnv scenario hpos s i hi]
    exact scenario_fitness_zero _ _ (scenario_init_pos s i hi).1
  have hpb : ∀ i, i < scenario.SWARMSIZE →
      (particles_init_seeded scenarioEnv scenario s).p_best i 0 = 0 := by
    intro i hi
    have h1 : (particles_init_seeded scenarioEnv scenario s).p_best
        = (particles_init scenarioEnv scenario s).p_best := by
      rw [particles_init_split, update_n_best_eq]
    rw [h1, (particles_init_p_best scenarioEnv scenario s i hi
      (by rw [hxf i hi]; norm_num)).1 0 h0]
    exact (scenario_init_pos s i hi).1
  have hflat := update_n_best_flat scenario (particles_init_seeded scenarioEnv scenario s)
    100000 0 0 h0 hN hK (seeded_ring scenarioEnv scenario s) hpf hpb
    (fun i hi => Or.inl (by rw [seeded_n_best_fit scenarioEnv scenario s i hi]; norm_num))
    (Or.inl (by rw [seeded_g_best_fit]; norm_num))
  rw [← particles_init_split] at hflat
  refine ⟨fun i hi => ⟨(scenario_init_pos s i hi).1, (scenario_init_pos s i hi).2, ?_, ?_, ?_,
    (hflat.1 i hi).1, (hflat.1 i hi).2⟩, hflat.2.1, hflat.2.2, ?_⟩
  · rw [particles_init_x_fit]; exact hxf i hi
  · rw [particles_init_p_best_fit]; exact hpf i hi
  · have h1 : (particles_init scenarioEnv scenario s).p_best
        = (particles_init_seeded scenarioEnv scenario s).p_best := by
      rw [particles_init_split, update_n_best_eq]
    rw [h1]; exact hpb i hi
  · intro i j hi hj
    rw [particles_init_neighbor]
    exact seeded_ring scenarioEnv scenario s i j hi hj

theorem scenario_step_rest (t : Swarm) (h : scenario_rest t) :
    scenario_rest (pso_iteration scenarioEnv scenario t) := by
  obtain ⟨hp, hgf, hgb, hring⟩ := h
  have hN : 1 ≤ scenario.SWARMSIZE := by decide
  have hK : 1 ≤ scenario.NEIGH_SIZE := by decide
  have h0 : (0 : Nat) < scenario.DATASIZE := by decide
  have hnv : ∀ i, i < 2 → ∀ r1 r2, new_velocity scenario t i 0 r1 r2 = 0 := by
    intro i hi r1 r2
    obtain ⟨hx, hv, _, _, hpb, _, hnb⟩ := hp i hi
    unfold new_velocity
    rw [hx, hv, hpb, hnb]
    norm_num [scenario]
  have hUx : ∀ i, i < 2 → (update_particle_positions scenarioEnv scenario t).x i 0 = 0 := by
    intro i hi
    have hi2 : i < scenario.SWARMSIZE := hi
    rw [update_particle_positions_eq]
    simp only [hi2, h0, and_self, if_true]
    rw [hnv i hi, (hp i hi).1]
    norm_num
  have hUv : ∀ i, i < 2 → (update_particle_positions scenarioEnv scenario t).v i 0 = 0 := by
    intro i hi
    have hi2 : i < scenario.SWARMSIZE := hi
    rw [update_particle_positions_eq]
    simp only [hi2, h0, and_self, if_true]
    exact hnv i hi _ _
  have hSx : (pso_iteration_scored scenarioEnv scenario t).x
      = (update_particle_positions scenarioEnv scenario t).x := by
    unfold pso_iteration_scored
    rw [update_p_best_eq, evaluate_particles_eq]
  have hSv : (pso_iteration_scored scenarioEnv scenario t).v
      = (update_particle_positions scenarioEnv scenario t).v := by
    unfold pso_iteration_scored
    rw [update_p_best_eq, evaluate_particles_eq]
  have hSxf : ∀ i, i < 2 → (pso_iteration_scored scenarioEnv scenario t).x_fit i = 100000 := by
    intro i hi
    have hi2 : i < scenario.SWARMSIZE := hi
    unfold pso_iteration_scored
    rw [update_p_best_eq, evaluate_particles_eq]
    simp only [hi2, if_true]
    exact scenario_fitness_zero _ _ (hUx i hi)
  have hEpf : (evaluate_particles scenarioEnv scenario
      (update_particle_positions scenarioEnv scenario t)).p_best_fit = t.p_best_fit := by
    rw [evaluate_particles_eq, update_particle_positions_eq]
  have hEpb : (evaluate_particles scenarioEnv scenario
      (update_particle_positions scenarioEnv scenario t)).p_best = t.p_best := by
    rw [evaluate_particles_eq, update_particle_positions_eq]
  have hExf : ∀ i, i < 2 → (evaluate_particles scenarioEnv scenario
      (update_particle_positions scenarioEnv scenario t)).x_fit i = 100000 := by
    intro i hi
    have hi2 : i < scenario.SWARMSIZE := hi
    rw [evaluate_particles_eq]
    simp only [hi2, if_true]
    exact scenario_fitness_zero _ _ (hUx i hi)
  have hkeep : ∀ i, i < 2 → ¬ ((evaluate_particles scenarioEnv scenario
      (update_particle_positions scenarioEnv scenario t)).x_fit i
      > (evaluate_particles scenarioEnv scenario
        (update_particle_positions scenarioEnv scenario t)).p_best_fit i) := by
    intro i hi
    rw [hExf i hi, hEpf, (hp i hi).2.2.2.1]
    exact lt_irrefl _
  have hSpf : ∀ i, i < scenario.SWARMSIZE →
      (pso_iteration_scored scenarioEnv scenario t).p_best_fit i = 100000 := by
    intro i hi
    unfold pso_iteration_scored
    rw [update_p_best_eq]
    simp only [hkeep i hi, and_false, if_false]
    rw [hEpf]; exact (hp i hi).2.2.2.1
  have hSpb : ∀ i, i < scenario.SWARMSIZE →
      (pso_iteration_scored scenarioEnv scenario t).p_best i 0 = 0 := by
    intro i hi
    unfold pso_iteration_scored
    rw [update_p_best_eq]
    simp only [hkeep i hi, and_false, if_false]
    rw [hEpb]; exact (hp i hi).2.2.2.2.1
  have hSnf : (pso_iteration_scored scenarioEnv scenario t).n_best_fit = t.n_best_fit := by
    unfold pso_iteration_scored
    rw [update_p_best_eq, evaluate_particles_eq, update_particle_positions_eq]
  have hSnb : (pso_iteration_scored scenarioEnv scenario t).n_best = t.n_best := by
    unfold pso_iteration_scored
    rw [update_p_best_eq, evaluate_particles_eq, update_particle_positions_eq]
  have hSgf : (pso_iteration_scored scenarioEnv scenario t).g_best_fit = t.g_best_fit := by
    unfold pso_iteration_scored
    rw [update_p_best_eq, evaluate_particles_eq, update_particle_positions_eq]
  have hSgb : (pso_iteration_scored scenarioEnv scenario t).g_best = t.g_best := by
    unfold pso_iteration_scored
    rw [update_p_best_eq, evaluate_particles_eq, update_particle_positions_eq]
  have hSnbr : (pso_iteration_scored scenarioEnv scenario t).neighbor = t.neighbor := by
    unfold pso_iteration_scored
    rw [update_p_best_eq, evaluate_particles_eq, update_particle_positions_eq]
  have hSring : ring_neighbors scenario (pso_iteration_scored scenarioEnv scenario t) := by
    intro i j hi hj
    rw [hSnbr]; exact hring i j hi hj
  have hflat := update_n_best_flat scenario (pso_iteration_scored scenarioEnv scenario t)
    100000 0 0 h0 hN hK hSring hSpf hSpb
    (fun i hi => Or.inr (by rw [hSnf, hSnb]; exact ⟨(hp i hi).2.2.2.2.2.1, (hp i hi).2.2.2.2.2.2⟩))
    (Or.inr (by rw [hSgf, hSgb]; exact ⟨hgf, hgb⟩))
  rw [← pso_iteration_split scenarioEnv scenario rfl] at hflat
  have hfx : (pso_iteration scenarioEnv scenario t).x
      = (pso_iteration_scored scenarioEnv scenario t).x := by
    rw [pso_iteration_split scenarioEnv scenario rfl, update_n_best_eq]
  have hfv : (pso_iteration scenarioEnv scenario t).v
      = (pso_iteration_scored scenarioEnv scenario t).v := by
    rw [pso_iteration_split scenarioEnv scenario rfl, update_n_best_eq]
  have hfxf : (pso_iteration scenarioEnv scenario t).x_fit
      = (pso_iteration_scored scenarioEnv scenario t).x_fit := by
    rw [pso_iteration_split scenarioEnv scenario rfl, update_n_best_eq]
  have hfpf : (pso_iteration scenarioEnv scenario t).p_best_fit
      = (pso_iteration_scored scenarioEnv scenario t).p_best_fit := by
    rw [pso_iteration_split scenarioEnv scenario rfl, update_n_best_eq]
  have hfpb : (pso_iteration scenarioEnv scenario t).p_best
      = (pso_iteration_scored scenarioEnv scenario t).p_best := by
    rw [pso_iteration_split scenarioEnv scenario rfl, update_n_best_eq]
  have hfnbr : (pso_iteration scenarioEnv scenario t).neighbor
      = (pso_iteration_scored scenarioEnv scenario t).neighbor := by
    rw [pso_iteration_split scenarioEnv scenario rfl, update_n_best_eq]
  refine ⟨fun i hi => ⟨?_, ?_, ?_, ?_, ?_, (hflat.1 i hi).1, (hflat.1 i hi).2⟩,
    hflat.2.1, hflat.2.2, ?_⟩
  · rw [hfx, hSx]; exact hUx i hi
  · rw [hfv, hSv]; exact hUv i hi
  · rw [hfxf]; exact hSxf i hi
  · rw [hfpf]; exact hSpf i hi
  · rw [hfpb]; exact hSpb i hi
  · intro i j hi hj
    rw [hfnbr]; exact hSring i j hi hj

theorem scenario_rest_log (t : Swarm) (l : List (Nat × ℚ)) (h : scenario_rest t) :
    scenario_rest { t with fit_log := l } := by
  obtain ⟨ha, hb, hc, hd⟩ := h
  refine ⟨?_, ?_, ?_, ?_⟩
  · intro i hi
    exact ha i hi
  · exact hb
  · exact hc
  · intro i j hi hj
    exact hd i j hi hj

theorem pso_run_after_zero (e : Env) (c : Config) (s : Swarm) :
    pso_run_after e c 0 s = particles_init e c { s with fit_log := [] } := rfl

theorem pso_run_after_one (e : Env) (c : Config) (s : Swarm) :
    pso_run_after e c 1 s
      = pso_run_step e c 0 (particles_init e c { s with fit_log := [] }) :=
  (pso_run_after_succ e c 0 s).trans (congrArg (pso_run_step e c 0) (pso_run_after_zero e c s))

theorem pso_run_step_eq (e : Env) (c : Config) (i : Nat) (s : Swarm) :
    pso_run_step e c i s = { pso_iteration e c s with
      fit_log := (pso_iteration e c s).fit_log ++ [(i, (pso_iteration e c s).g_best_fit)] } := rfl

theorem scenario_iterations : PSO_ITERATIONS scenario = 1 := by decide

theorem scenario_run_state (s : Swarm) :
    pso_run_state scenarioEnv scenario s = pso_run_after scenarioEnv scenario 1 s := by
  unfold pso_run_state
  rw [scenario_iterations]

theorem scenario_run_rest (s : Swarm) :
    scenario_rest (pso_run_state scenarioEnv scenario s) := by
  rw [scenario_run_state, pso_run_after_one, pso_run_step_eq]
  apply scenario_rest_log
  apply scenario_step_rest
  apply scenario_init_rest

/-- C12. End-to-end zero fixed point: with `D = 1`, `N = 2`, `K = 1`,
`T = 1`, `MININIT = -10`, `MAXINIT = 10`, `VMAX = 4`, `INERTIA = 0.6`,
`PWEIGHT = NWEIGHT = 2`, the harness fitness (`1/x²`, with `x = 0` scored as
`1/0.00001`) and every `uniform(a, b)` draw equal to `(a + b)/2`: after
`particles_init` both positions and both velocities are 0, every fitness and
best fitness is 100000 and `g_best` is position 0, the position of particle
0; after the single iteration velocities and positions are still 0, the log
holds the one record `(0, 100000)`, and `pso_run` returns the position 0. -/
theorem C12_zero_fixed_point (s : Swarm) :
    (∀ k a b, uniform scenario (scenarioEnv.rand k) a b = (a + b) / 2)
    ∧ (∀ k x, scenarioEnv.fitness k [x] = if x = 0 then 1 / (1 / 100000) else 1 / x ^ 2)
    ∧ PSO_ITERATIONS scenario = 1
    ∧ (∀ i, i < 2 →
        (particles_init scenarioEnv scenario s).x i 0 = 0
        ∧ (particles_init scenarioEnv scenario s).v i 0 = 0
        ∧ (particles_init scenarioEnv scenario s).x_fit i = 100000
        ∧ (particles_init scenarioEnv scenario s).p_best_fit i = 100000
        ∧ (particles_init scenarioEnv scenario s).n_best_fit i = 100000)
    ∧ (particles_init scenarioEnv scenario s).g_best_fit = 100000
    ∧ (particles_init scenarioEnv scenario s).g_best 0 = 0
    ∧ (particles_init scenarioEnv scenario s).g_best 0
        = (particles_init scenarioEnv scenario s).x 0 0
    ∧ (∀ i, i < 2 →
        (pso_run_state scenarioEnv scenario s).v i 0 = 0
        ∧ (pso_run_state scenarioEnv scenario s).x i 0 = 0)
    ∧ (pso_run_state scenarioEnv scenario s).fit_log = [(0, 100000)]
    ∧ pso_run scenarioEnv scenario s = [0] := by
  obtain ⟨hi, hig, hib, _⟩ := scenario_init_rest s
  obtain ⟨hr, hrg, hrb, _⟩ := scenario_run_rest s
  refine ⟨scenario_uniform, ?_, scenario_iterations, ?_, hig, hib, ?_, ?_, ?_, ?_⟩
  · intro k x
    show fitness scenario [x] = _
    rw [scenario_fitness]
    norm_num
  · intro i h
    obtain ⟨h1, h2, h3, h4, _, h6, _⟩ := hi i h
    exact ⟨h1, h2, h3, h4, h6⟩
  · rw [hib, (hi 0 (by omega)).1]
  · intro i h
    exact ⟨(hr i h).2.1, (hr i h).1⟩
  · have hrg2 : (pso_run_after scenarioEnv scenario 1 s).g_best_fit = 100000 := by
      rw [← scenario_run_state]; exact hrg
    rw [scenario_run_state, pso_run_after_log]
    simp [List.range_succ, hrg2]
  · show coeffs scenario (pso_run_state scenarioEnv scenario s).g_best = [0]
    rw [scenario_coeffs, hrb]

end Pso
